import Mathlib

/-!
Shallow embedding of the `school` repository's `reports` app (Django).

Modelling conventions:
* Database tables are Lean lists of structures; a row's primary key is an
  explicit `id : Nat` field.  Django's `unique=True` columns become `Nodup`
  hypotheses on the corresponding projections where a theorem needs them.
* Foreign keys are stored ids (`Nat`, or `Option Nat` for nullable FKs); a
  Django attribute access through an FK becomes a `find?` lookup in the state,
  which matches SQL join semantics (a dangling id joins to no row).
* QuerySets are lists; `.filter` is `List.filter`, `.first()` is `List.find?`
  on the list in database order, `.distinct()` is `List.dedup`.
* Python truthiness of strings is `≠ ""`, of `None`-able values is
  `Option.isSome`.
* `try/except` wrappers in the source only guard against schema drift and
  runtime DB failures; the embedding models the non-failing executions.
-/

namespace School

/-- `reports.models.ReportType` (the fields the verified logic reads). -/
structure ReportType where
  id : Nat
  code : String
  is_active : Bool
deriving DecidableEq

/-- `reports.models.Role`.  `allowed_reporttypes` is the M2M as a list of
`ReportType` primary keys. -/
structure Role where
  id : Nat
  slug : String
  name : String
  is_staff_by_default : Bool
  can_view_all_reports : Bool
  allowed_reporttypes : List Nat
  is_active : Bool
deriving DecidableEq

/-- `reports.models.Teacher` (the custom user model).  `is_authenticated` and
`is_superuser` are the framework-provided user flags the permission code
reads. -/
structure Teacher where
  id : Nat
  name : String
  role_id : Option Nat
  is_active : Bool
  is_staff : Bool
  is_superuser : Bool
  is_authenticated : Bool
deriving DecidableEq

/-- `reports.models.Department`.  `reporttypes` is the M2M as a list of
`ReportType` primary keys. -/
structure Department where
  id : Nat
  name : String
  slug : String
  role_label : String
  is_active : Bool
  reporttypes : List Nat
deriving DecidableEq

/-- `reports.models.DepartmentMembership`. -/
structure DepartmentMembership where
  department_id : Nat
  teacher_id : Nat
  role_type : String
deriving DecidableEq

/-- A calendar date (`datetime.date`): proleptic Gregorian. -/
structure Date where
  year : Nat
  month : Nat
  day : Nat
deriving DecidableEq

/-- `reports.models.Report` (the fields the verified logic reads).
`report_date` is an `Option` because `Report.save` guards on its presence
before the row is complete. -/
structure Report where
  id : Nat
  teacher_id : Nat
  teacher_name : String
  title : String
  report_date : Option Date
  day_name : Option String
  category_id : Option Nat
deriving DecidableEq

/-- The relational state the permission / synchronization logic runs over. -/
structure State where
  roles : List Role
  departments : List Department
  memberships : List DepartmentMembership
  teachers : List Teacher
  reporttypes : List ReportType
deriving DecidableEq

/-- `reports.models.MANAGER_SLUG`. -/
def MANAGER_SLUG : String := "manager"

/-- `reports.models.MANAGER_NAME`. -/
def MANAGER_NAME : String := "الإدارة"

/-- `reports.models.MANAGER_ROLE_LABEL`. -/
def MANAGER_ROLE_LABEL : String := "المدير"

/-- `str.lower()` (ASCII case folding), implemented by structural recursion
over the character list so that it reduces in the kernel. -/
def strLower (s : String) : String := String.mk (s.data.map Char.toLower)

/-- `str.strip()`: drop leading and trailing whitespace, implemented by
structural recursion so that it reduces in the kernel. -/
def strTrim (s : String) : String :=
  String.mk (((s.data.dropWhile Char.isWhitespace).reverse.dropWhile
    Char.isWhitespace).reverse)

/-- `permissions._user_role`: the `Role` row joined through `user.role_id`. -/
def userRole (s : State) (u : Teacher) : Option Role :=
  u.role_id.bind (fun rid => s.roles.find? (fun r => r.id == rid))

/-- `permissions._user_role_slug`. -/
def user_role_slug (s : State) (u : Teacher) : Option String :=
  (userRole s u).map Role.slug

/-- `values_list("code", flat=True)` over a list of `ReportType` primary keys:
join each id to its row and read `code` (a dangling id yields no row). -/
def codesOfRTIds (s : State) (ids : List Nat) : List String :=
  ids.filterMap (fun i => (s.reporttypes.find? (fun rt => rt.id == i)).map ReportType.code)

/-- Arm (1) of `permissions.get_officer_departments`: the departments joined
through officer `DepartmentMembership` rows on active departments
(`select_related` + `filter(teacher=user, role_type="officer",
department__is_active=True)`). -/
def officerMembDepts (s : State) (u : Teacher) : List Department :=
  s.memberships.filterMap (fun m =>
    if m.teacher_id = u.id ∧ m.role_type = "officer" then
      (s.departments.find? (fun d => d.id == m.department_id)).bind
        (fun d => if d.is_active then some d else none)
    else none)

/-- De-duplication by pk preserving order (the `seen` set in the source). -/
def dedupById (l : List Department) : List Department :=
  l.foldl (fun acc d => if acc.any (fun x => x.id == d.id) then acc else acc ++ [d]) []

/-- Arm (2) of `permissions.get_officer_departments`: the legacy fallback —
the first active department whose `slug` equals the role's truthy `slug`, or
failing that whose `role_label` case-insensitively equals the role's
truthy `name`. -/
def fallbackDept (s : State) (role : Role) : Option Department :=
  match (if role.slug ≠ "" then
      (s.departments.filter (fun d => d.is_active)).find? (fun d => d.slug == role.slug)
    else none) with
  | some d => some d
  | none =>
    if role.name ≠ "" then
      (s.departments.filter (fun d => d.is_active)).find?
        (fun d => strLower d.role_label == strLower role.name)
    else none

/-- `permissions.get_officer_departments`: the officer-membership departments
de-duplicated by pk, then the fallback department appended unless seen. -/
def get_officer_departments (s : State) (u : Teacher) : List Department :=
  if ¬ u.is_authenticated then []
  else
    match userRole s u with
    | none => dedupById (officerMembDepts s u)
    | some role =>
      match fallbackDept s role with
      | some d =>
        if (dedupById (officerMembDepts s u)).any (fun x => x.id == d.id) then
          dedupById (officerMembDepts s u)
        else dedupById (officerMembDepts s u) ++ [d]
      | none => dedupById (officerMembDepts s u)

/-- `permissions.allowed_categories_for`:
`{"all"}` for a superuser, the `manager` role slug, or a role with
`can_view_all_reports`; otherwise the union of the codes of
`role.allowed_reporttypes` and of the `reporttypes` of every officer
department (empty codes dropped).  The union is represented as a list whose
membership is the set membership. -/
def allowed_categories_for (s : State) (u : Teacher) : List String :=
  if u.is_superuser then ["all"]
  else if ((userRole s u).map Role.slug) = some "manager" then ["all"]
  else if ((userRole s u).map Role.can_view_all_reports).getD false then ["all"]
  else
    (match userRole s u with
     | some r => (codesOfRTIds s r.allowed_reporttypes).filter (fun c => c ≠ "")
     | none => []) ++
    (get_officer_departments s u).flatMap
      (fun d => (codesOfRTIds s d.reporttypes).filter (fun c => c ≠ ""))

/-- `permissions.restrict_queryset_for_user`: no restriction for
superuser / `manager` slug / `can_view_all_reports` or a resolved set
containing `"all"`; otherwise own reports plus reports whose category code is
in the resolved set (the category filter is only added when the set is
non-empty), `.distinct()` at the end. -/
def restrict_queryset_for_user (s : State) (qs : List Report) (u : Teacher) : List Report :=
  let role := userRole s u
  if u.is_superuser ∨ (role.map Role.slug) = some "manager"
      ∨ ((role.map Role.can_view_all_reports).getD false) = true then qs
  else
    let allowed := allowed_categories_for s u
    if "all" ∈ allowed then qs
    else
      (qs.filter (fun r =>
        (r.teacher_id == u.id) ||
          (!allowed.isEmpty &&
            (match r.category_id.bind (fun cid => s.reporttypes.find? (fun rt => rt.id == cid)) with
             | some rt => allowed.contains rt.code
             | none => false)))).dedup

/-- `Teacher.save`: when the joined role exists, `is_staff` is overwritten
with `role.is_staff_by_default` (a missing role row leaves the flag alone:
the source swallows the lookup failure). -/
def teacherSave (s : State) (t : Teacher) : Teacher :=
  match userRole s t with
  | some role => { t with is_staff := role.is_staff_by_default }
  | none => t

/-- `reports.models.Ticket` (the fields the ticket views read). -/
structure Ticket where
  id : Nat
  creator_id : Nat
  assignee_id : Option Nat
  title : String
  status : String
deriving DecidableEq

/-- `reports.models.TicketNote` rows created by the ticket detail view. -/
structure TicketNoteRow where
  ticket_id : Nat
  author_id : Nat
  body : String
  is_public : Bool
deriving DecidableEq

/-- A flash message produced via `django.contrib.messages`. -/
inductive Msg
| success (text : String)
| info (text : String)
| warning (text : String)
| error (text : String)
deriving DecidableEq

/-- The warning `ticket_detail` emits when a non-assignee submits a status. -/
def WARN_NOT_ASSIGNEE : String := "لا يمكنك تغيير حالة هذا الطلب. يمكنك فقط إضافة ملاحظة."

/-- `views._can_act`: only an authenticated user who is the current assignee
(of a non-null assignee) may act on a ticket. -/
def _can_act (u : Teacher) (t : Ticket) : Bool :=
  if ¬ u.is_authenticated then false
  else t.assignee_id.isSome && (t.assignee_id == some u.id)

/-- `Ticket.Status.choices` keys. -/
def VALID_TICKET_STATUSES : List String := ["open", "in_progress", "done", "rejected"]

/-- The outcome of one POST to `views.ticket_detail`: the (possibly updated)
ticket, the `TicketNote` rows created, and the flash messages emitted. -/
structure TicketPostResult where
  ticket : Ticket
  new_notes : List TicketNoteRow
  msgs : List Msg
deriving DecidableEq

/-- The POST branch of `views.ticket_detail`:
strip the submitted `status` and `note`; a non-empty note by the owner or the
assignee is appended; a non-empty status by a non-assignee only emits a
warning, while the assignee changes the status (when valid and different)
and a system note records `old → new`; finally a success/info message. -/
def ticket_detail_post (t : Ticket) (u : Teacher) (statusRaw noteRaw : String) :
    TicketPostResult :=
  let status_val := statusRaw.trim
  let note_txt := noteRaw.trim
  let is_owner : Bool := t.creator_id == u.id
  let can_act : Bool := _can_act u t
  let doNote : Bool := (note_txt != "") && (is_owner || can_act)
  let notes1 : List TicketNoteRow :=
    if doNote then [⟨t.id, u.id, note_txt, true⟩] else []
  let statusAttempt : Bool := status_val != ""
  let warn : List Msg :=
    if statusAttempt && !can_act then [Msg.warning WARN_NOT_ASSIGNEE] else []
  let doStatus : Bool :=
    statusAttempt && can_act && VALID_TICKET_STATUSES.contains status_val
      && (status_val != t.status)
  let t2 : Ticket := if doStatus then { t with status := status_val } else t
  let notes2 : List TicketNoteRow :=
    notes1 ++
      (if doStatus then
        [⟨t.id, u.id, "تغيير الحالة: " ++ t.status ++ " → " ++ status_val, true⟩]
      else [])
  let changed : Bool := doNote || doStatus
  let finalMsg : Msg :=
    if changed then Msg.success "تم حفظ التغييرات." else Msg.info "لا يوجد تغييرات."
  { ticket := t2, new_notes := notes2, msgs := warn ++ [finalMsg] }

/-- Sakamoto's day-of-week method for the proleptic Gregorian calendar:
`0 = Sunday, …, 6 = Saturday`.  This computes the same weekday as Python's
`datetime.date`. -/
def dowSakamoto (y m d : Nat) : Nat :=
  let tbl : List Nat := [0, 3, 2, 5, 0, 3, 5, 1, 4, 6, 2, 4]
  let y2 := if m < 3 then y - 1 else y
  (y2 + y2 / 4 - y2 / 100 + y2 / 400 + tbl.getD (m - 1) 0 + d) % 7

/-- `date.isoweekday()`: `1 = Monday, …, 7 = Sunday`. -/
def isoweekday (dt : Date) : Nat :=
  let w := dowSakamoto dt.year dt.month dt.day
  if w = 0 then 7 else w

/-- The fixed Arabic weekday table in `Report.save`, keyed by
`isoweekday` (`days.get(...)` is `None` off the 1..7 range). -/
def arabicDays : Nat → Option String
  | 1 => some "الاثنين"
  | 2 => some "الثلاثاء"
  | 3 => some "الأربعاء"
  | 4 => some "الخميس"
  | 5 => some "الجمعة"
  | 6 => some "السبت"
  | 7 => some "الأحد"
  | _ => none

/-- Python truthiness test `not self.day_name` (`None` or `""`). -/
def dayNameEmpty : Option String → Bool
  | none => true
  | some s => s == ""

/-- The first block of `Report.save`: derive `day_name` from `report_date`
when `day_name` is empty. -/
def reportSaveDayName (r : Report) : Report :=
  match r.report_date with
  | some dt =>
    if dayNameEmpty r.day_name then { r with day_name := arabicDays (isoweekday dt) }
    else r
  | none => r

/-- The second block of `Report.save`: freeze `teacher_name` from the owning
teacher when empty. -/
def reportSaveFreeze (s : State) (r : Report) : Report :=
  if r.teacher_name = "" then
    match s.teachers.find? (fun t => t.id == r.teacher_id) with
    | some t => { r with teacher_name := t.name }
    | none => r
  else r

/-- `Report.save`. -/
def reportSave (s : State) (r : Report) : Report :=
  reportSaveFreeze s (reportSaveDayName r)

/-- Python `x or y` on strings. -/
def pyOr (a b : String) : String := if a = "" then b else a

/-- `django.utils.text.slugify(value, allow_unicode=True)` restricted to the
character classes Lean's `Char` predicates cover: lowercase, drop characters
that are not word characters, whitespace or hyphens, collapse runs of
whitespace/hyphens to a single hyphen, and strip leading/trailing `-`/`_`. -/
def slugify (v : String) : String :=
  let kept := (strLower v).toList.filter
    (fun c => c.isAlphanum || c = '_' || c = '-' || c.isWhitespace)
  let collapsed :=
    (kept.foldl
      (fun (st : List Char × Bool) c =>
        if c = '-' ∨ c.isWhitespace then
          (if st.2 then st.1 else st.1 ++ ['-'], true)
        else (st.1 ++ [c], false))
      ([], false)).1
  let stripped :=
    ((collapsed.dropWhile (fun c => c = '-' ∨ c = '_')).reverse.dropWhile
      (fun c => c = '-' ∨ c = '_')).reverse
  String.mk stripped

/-- The slug normalization at the top of `Department.save`:
`slug.strip().lower()` when `slug` is truthy, else `slugify(name)`. -/
def normalizeDeptSlug (d : Department) : String :=
  if d.slug ≠ "" then strLower (strTrim d.slug) else slugify d.name

/-- Replace the role row with primary key `r2.id` by `r2`
(`role.save(update_fields=...)`). -/
def updateRoleById (roles : List Role) (r2 : Role) : List Role :=
  roles.map (fun r => if r.id = r2.id then r2 else r)

/-- A fresh primary key for a role created by `get_or_create`. -/
def freshRoleId (roles : List Role) : Nat :=
  (roles.map Role.id).foldr Nat.max 0 + 1

/-- Insert-or-update of the department row being saved (`super().save()`). -/
def upsertDept (depts : List Department) (d : Department) : List Department :=
  if depts.any (fun x => x.id == d.id) then
    depts.map (fun x => if x.id = d.id then d else x)
  else depts ++ [d]

/-- The merged target role: forced manager flags when saving at
`MANAGER_SLUG`, `is_active` mirrored from the department, and the old role's
`allowed_reporttypes` links added (M2M `add` is set union). -/
def mergedTargetRole (d : Department) (role_name : String) (old_role target : Role) : Role :=
  { target with
    name := role_name,
    is_staff_by_default :=
      if d.slug = MANAGER_SLUG then true else target.is_staff_by_default,
    can_view_all_reports :=
      if d.slug = MANAGER_SLUG then true else target.can_view_all_reports,
    is_active := d.is_active,
    allowed_reporttypes :=
      target.allowed_reporttypes ++
        old_role.allowed_reporttypes.filter (fun p => p ∉ target.allowed_reporttypes) }

/-- The merge arm of `Department.save`'s role sync: update the target role's
attributes, add the old role's `allowed_reporttypes` links, repoint all
teachers on the old role, delete the old role. -/
def mergeRoles (s : State) (d : Department) (role_name : String)
    (old_role target : Role) : State :=
  { s with
    roles := (updateRoleById s.roles (mergedTargetRole d role_name old_role target)).filter
      (fun r => !(r.id == old_role.id)),
    teachers := s.teachers.map
      (fun t => if t.role_id = some old_role.id then { t with role_id := some target.id }
                else t) }

/-- The old role after the rename arm: moved to the new slug, renamed, with
the manager attributes forced when the new slug is `MANAGER_SLUG`. -/
def renamedOldRole (d : Department) (role_name : String) (old_role : Role) : Role :=
  { old_role with
    slug := d.slug,
    name := role_name,
    is_staff_by_default :=
      if d.slug = MANAGER_SLUG then true else old_role.is_staff_by_default,
    can_view_all_reports :=
      if d.slug = MANAGER_SLUG then true else old_role.can_view_all_reports,
    is_active := d.is_active }

/-- The rename arm of `Department.save`'s role sync: move the old role to the
new slug in place. -/
def renameRole (s : State) (d : Department) (role_name : String) (old_role : Role) : State :=
  { s with roles := updateRoleById s.roles (renamedOldRole d role_name old_role) }

/-- An existing role refreshed by the `get_or_create` arm. -/
def updatedExistingRole (d : Department) (role_name : String) (role : Role) : Role :=
  { role with
    name := role_name,
    is_active := d.is_active,
    is_staff_by_default :=
      if d.slug = MANAGER_SLUG then true else role.is_staff_by_default,
    can_view_all_reports :=
      if d.slug = MANAGER_SLUG then true else role.can_view_all_reports }

/-- The role created by `get_or_create` when none exists at the slug. -/
def createdRole (roles : List Role) (d : Department) (role_name : String) : Role :=
  { id := freshRoleId roles, slug := d.slug, name := role_name,
    is_staff_by_default := d.slug = MANAGER_SLUG,
    can_view_all_reports := d.slug = MANAGER_SLUG,
    allowed_reporttypes := [], is_active := d.is_active }

/-- The `get_or_create`-then-update arm of `Department.save`'s role sync. -/
def getOrCreateRoleAndUpdate (s : State) (d : Department) (role_name : String) : State :=
  match s.roles.find? (fun r => r.slug == d.slug) with
  | some role =>
    { s with roles := updateRoleById s.roles (updatedExistingRole d role_name role) }
  | none => { s with roles := s.roles ++ [createdRole s.roles d role_name] }

/-- The role synchronization block of `Department.save`: when the slug
changed (old slug truthy and different), merge into an existing role at the
new slug, or rename the old role, or `get_or_create`; otherwise
`get_or_create` and refresh the attributes. -/
def roleSync (s : State) (d : Department) (old_slug : Option String)
    (role_name : String) : State :=
  match old_slug with
  | some os =>
    if os ≠ "" ∧ os ≠ d.slug then
      match s.roles.find? (fun r => r.slug == os) with
      | some old_role =>
        match s.roles.find? (fun r => r.slug == d.slug) with
        | some target =>
          if ¬ target.id = old_role.id then mergeRoles s d role_name old_role target
          else renameRole s d role_name old_role
        | none => renameRole s d role_name old_role
      | none => getOrCreateRoleAndUpdate s d role_name
    else getOrCreateRoleAndUpdate s d role_name
  | none => getOrCreateRoleAndUpdate s d role_name

/-- The in-memory normalization at the top of `Department.save`: normalized
slug, forced manager attributes when the new slug is `MANAGER_SLUG`, and the
`role_label` defaulted to `name` when blank. -/
def deptSaveNormalized (dept0 : Department) : Department :=
  let d1 := { dept0 with slug := normalizeDeptSlug dept0 }
  let d2 :=
    if d1.slug = MANAGER_SLUG then
      { d1 with name := MANAGER_NAME, role_label := MANAGER_ROLE_LABEL, is_active := true }
    else d1
  if d2.role_label = "" then { d2 with role_label := d2.name } else d2

/-- The stored slug of the row being saved (`None` for a new row). -/
def deptOldSlug (s : State) (dept0 : Department) : Option String :=
  (s.departments.find? (fun x => x.id == dept0.id)).map Department.slug

/-- The department as persisted by `Department.save`: the normalized
department, with a rename away from `MANAGER_SLUG` reverted. -/
def deptSaveFinal (s : State) (dept0 : Department) : Department :=
  let d3 := deptSaveNormalized dept0
  if deptOldSlug s dept0 = some MANAGER_SLUG ∧ d3.slug ≠ MANAGER_SLUG then
    { d3 with slug := MANAGER_SLUG, name := MANAGER_NAME,
              role_label := MANAGER_ROLE_LABEL, is_active := true }
  else d3

/-- `(self.role_label or self.name or "").strip()` on the normalized row. -/
def deptRoleName (dept0 : Department) : String :=
  strTrim (pyOr (deptSaveNormalized dept0).role_label
    (pyOr (deptSaveNormalized dept0).name ""))

/-- `Department.save`: normalize the slug, force the manager department's
attributes, default `role_label`, read the old slug from the stored row,
revert a rename away from `MANAGER_SLUG`, persist the row, then synchronize
the mirrored role.  Returns the new state and the saved department. -/
def deptSave (s : State) (dept0 : Department) : State × Department :=
  let d4 := deptSaveFinal s dept0
  (roleSync { s with departments := upsertDept s.departments d4 } d4
    (deptOldSlug s dept0) (deptRoleName dept0),
   d4)

/-- `Department.delete`: the permanent manager department cannot be deleted
(a `ValidationError` is raised before the row is touched). -/
def deptDelete (s : State) (d : Department) : Except String State :=
  if d.slug = MANAGER_SLUG then Except.error "لا يمكن حذف قسم المدير الدائم."
  else Except.ok { s with departments := s.departments.filter (fun x => !(x.id == d.id)) }

/-- `reports.models.Notification` (the fields the fan-out touches). -/
structure Notification where
  id : Nat
  title : String
  message : String
  created_by : Option Nat
deriving DecidableEq

/-- `reports.models.NotificationRecipient`; `(notification, teacher)` is
`unique_together`. -/
structure NotificationRecipient where
  notification_id : Nat
  teacher_id : Nat
  is_read : Bool
deriving DecidableEq

/-- The notification tables. -/
structure NotificationDb where
  notifications : List Notification
  recipients : List NotificationRecipient
deriving DecidableEq

/-- A fresh primary key for a created notification. -/
def freshNotificationId (db : NotificationDb) : Nat :=
  (db.notifications.map Notification.id).foldr Nat.max 0 + 1

/-- Modelled from the spec: `NotificationCreateForm.save` is absent from the
sources (`views.py` imports it behind `try/except` with a `None` fallback and
`forms.py` does not define it).  Per the spec's §4.4, `views.notifications_create`
transactionally inserts one `Notification` row and bulk-creates one
`NotificationRecipient` per selected teacher with `ignore_conflicts=True`
against the unique `(notification, teacher)` pair, so a conflicting row
(already present, or duplicated inside the batch) is silently skipped. -/
def notifications_create (db : NotificationDb) (creator : Nat)
    (title message : String) (selected : List Nat) : NotificationDb :=
  let nid := freshNotificationId db
  let recips :=
    selected.foldl
      (fun acc tid =>
        if (db.recipients ++ acc).any
            (fun rr => rr.notification_id == nid && rr.teacher_id == tid) then acc
        else acc ++ [⟨nid, tid, false⟩])
      []
  { notifications := db.notifications ++ [⟨nid, title, message, some creator⟩],
    recipients := db.recipients ++ recips }

/-! ## Theorems -/

/-- C6: after `Teacher.save`, `is_staff` equals `role.is_staff_by_default`
whenever the teacher's role is non-null (i.e. joins to a role row). -/
theorem teacher_save_staff_invariant (s : State) (t : Teacher) (ro : Role)
    (h : userRole s t = some ro) :
    (teacherSave s t).is_staff = ro.is_staff_by_default := by
  simp [teacherSave, h]

/-- Witness for C6 at a concrete state. -/
theorem teacher_save_staff_invariant_witness :
    userRole (State.mk [⟨10, "math", "Math", true, false, [], true⟩] [] [] [] [])
        ⟨5, "U", some 10, true, false, false, true⟩
      = some ⟨10, "math", "Math", true, false, [], true⟩ ∧
    (teacherSave (State.mk [⟨10, "math", "Math", true, false, [], true⟩] [] [] [] [])
        ⟨5, "U", some 10, true, false, false, true⟩).is_staff = true :=
  ⟨by decide,
   teacher_save_staff_invariant
     (State.mk [⟨10, "math", "Math", true, false, [], true⟩] [] [] [] [])
     ⟨5, "U", some 10, true, false, false, true⟩
     ⟨10, "math", "Math", true, false, [], true⟩ (by decide)⟩

/-- C3: the ticket detail POST changes the status only for the authenticated
current assignee; any other submitter (creator or unrelated) leaves the
status unchanged, and a submitted status value yields the warning message. -/
theorem ticket_status_change_requires_assignee
    (t : Ticket) (u : Teacher) (statusRaw noteRaw : String)
    (h : ¬ (u.is_authenticated = true ∧ t.assignee_id = some u.id)) :
    (ticket_detail_post t u statusRaw noteRaw).ticket.status = t.status ∧
    (statusRaw.trim ≠ "" →
      Msg.warning WARN_NOT_ASSIGNEE ∈ (ticket_detail_post t u statusRaw noteRaw).msgs) := by
  have hca : _can_act u t = false := by
    unfold _can_act
    by_cases ha : u.is_authenticated
    · cases haid : t.assignee_id with
      | none => simp [ha]
      | some x =>
        have hx : ¬ x = u.id := by
          intro hx
          exact h ⟨ha, by rw [haid, hx]⟩
        simp [ha, haid, hx]
    · simp [ha]
  unfold ticket_detail_post
  simp only [hca, Bool.and_false, Bool.false_and, if_false]
  constructor
  · split <;> simp_all
  · intro hs
    have hb : (statusRaw.trim != "") = true := by simpa using hs
    simp [hb]

/-- Witness for C3: the creator (not assignee) submits "done"; the status
stays "open" and the warning appears. -/
theorem ticket_status_change_requires_assignee_witness :
    (ticket_detail_post ⟨1, 5, some 6, "t", "open"⟩
        ⟨5, "A", none, true, false, false, true⟩ "done" "").ticket.status = "open" ∧
    ("done".trim ≠ "" →
      Msg.warning WARN_NOT_ASSIGNEE ∈
        (ticket_detail_post ⟨1, 5, some 6, "t", "open"⟩
          ⟨5, "A", none, true, false, false, true⟩ "done" "").msgs) :=
  ticket_status_change_requires_assignee ⟨1, 5, some 6, "t", "open"⟩
    ⟨5, "A", none, true, false, false, true⟩ "done" "" (by decide)

/-- C10: a ticket with a null assignee cannot have its status changed by any
user (creator, manager or superuser alike): `_can_act` is `false` and the
POST leaves the status as it was. -/
theorem ticket_null_assignee_no_status_change
    (t : Ticket) (u : Teacher) (statusRaw noteRaw : String)
    (h : t.assignee_id = none) :
    _can_act u t = false ∧
    (ticket_detail_post t u statusRaw noteRaw).ticket.status = t.status := by
  have hca : _can_act u t = false := by
    unfold _can_act
    simp [h]
  refine ⟨hca, ?_⟩
  unfold ticket_detail_post
  simp only [hca, Bool.and_false, Bool.false_and, if_false]
  split <;> simp_all

/-- Witness for C10: even a superuser cannot move an unassigned ticket. -/
theorem ticket_null_assignee_no_status_change_witness :
    _can_act ⟨9, "S", none, true, true, true, true⟩ ⟨1, 5, none, "t", "open"⟩ = false ∧
    (ticket_detail_post ⟨1, 5, none, "t", "open"⟩
        ⟨9, "S", none, true, true, true, true⟩ "done" "").ticket.status = "open" :=
  ticket_null_assignee_no_status_change ⟨1, 5, none, "t", "open"⟩
    ⟨9, "S", none, true, true, true, true⟩ "done" "" (by decide)

/-- `dowSakamoto` lands in `0..6`. -/
lemma dowSakamoto_lt (y m d : Nat) : dowSakamoto y m d < 7 := by
  unfold dowSakamoto
  exact Nat.mod_lt _ (by norm_num)

/-- The Arabic weekday table is populated (with a non-empty name) at every
value `isoweekday` can produce. -/
lemma arabicDays_isoweekday (dt : Date) :
    ∃ nm, arabicDays (isoweekday dt) = some nm ∧ nm ≠ "" := by
  unfold isoweekday
  have h7 : dowSakamoto dt.year dt.month dt.day < 7 := dowSakamoto_lt _ _ _
  set w := dowSakamoto dt.year dt.month dt.day with hw
  interval_cases w <;> simp [arabicDays]

/-- C8 counterexample: `Report.save` does not correct a pre-set `day_name`.
2024-01-01 is a Monday ("الاثنين"), but a report saved with
`day_name = "الأحد"` keeps it. -/
theorem report_day_name_cex :
    (reportSave (State.mk [] [] [] [] [])
        { id := 1, teacher_id := 1, teacher_name := "t", title := "t",
          report_date := some ⟨2024, 1, 1⟩, day_name := some "الأحد",
          category_id := none }).day_name = some "الأحد" ∧
    some "الأحد" ≠ arabicDays (isoweekday ⟨2024, 1, 1⟩) := by
  constructor
  · rfl
  · decide

/-- C8 (amended): after `Report.save`, `day_name` is non-empty whenever
`report_date` is set; when `day_name` was empty (null or `""`) before the
save it equals the Arabic weekday of `report_date` from the fixed
ISO-weekday table, while a pre-set non-empty `day_name` is left unchanged. -/
theorem report_day_name_amended (s : State) (r : Report) (dt : Date)
    (h : r.report_date = some dt) :
    (∃ nm, (reportSave s r).day_name = some nm ∧ nm ≠ "") ∧
    (dayNameEmpty r.day_name = true →
      (reportSave s r).day_name = arabicDays (isoweekday dt)) ∧
    (dayNameEmpty r.day_name = false →
      (reportSave s r).day_name = r.day_name) := by
  have hfreeze : ∀ r2 : Report, (reportSaveFreeze s r2).day_name = r2.day_name := by
    intro r2
    unfold reportSaveFreeze
    split
    · cases s.teachers.find? (fun t => t.id == r2.teacher_id) <;> rfl
    · rfl
  have hmain : (reportSave s r).day_name =
      if dayNameEmpty r.day_name then arabicDays (isoweekday dt) else r.day_name := by
    unfold reportSave
    rw [hfreeze]
    unfold reportSaveDayName
    simp only [h]
    split <;> rfl
  by_cases he : dayNameEmpty r.day_name
  · refine ⟨?_, ?_, ?_⟩
    · rw [hmain]
      simp only [he, if_true]
      exact arabicDays_isoweekday dt
    · intro _
      rw [hmain]
      simp [he]
    · intro hf
      rw [he] at hf
      cases hf
  · have he2 : dayNameEmpty r.day_name = false := by
      simpa using he
    refine ⟨?_, ?_, ?_⟩
    · rw [hmain]
      simp only [he2, if_false]
      cases hd : r.day_name with
      | none => rw [hd] at he2; simp [dayNameEmpty] at he2
      | some nm =>
        refine ⟨nm, rfl, ?_⟩
        rw [hd] at he2
        simpa [dayNameEmpty] using he2
    · intro ht
      rw [he2] at ht
      cases ht
    · intro _
      rw [hmain]
      simp [he2]

/-- Witness for C8 (amended): saving a report dated Monday 2024-01-01 with an
empty `day_name` fills in "الاثنين". -/
theorem report_day_name_amended_witness :
    (∃ nm, (reportSave (State.mk [] [] [] [] [])
        { id := 1, teacher_id := 1, teacher_name := "t", title := "t",
          report_date := some ⟨2024, 1, 1⟩, day_name := none,
          category_id := none }).day_name = some nm ∧ nm ≠ "") ∧
    (dayNameEmpty (none : Option String) = true →
      (reportSave (State.mk [] [] [] [] [])
        { id := 1, teacher_id := 1, teacher_name := "t", title := "t",
          report_date := some ⟨2024, 1, 1⟩, day_name := none,
          category_id := none }).day_name = arabicDays (isoweekday ⟨2024, 1, 1⟩)) ∧
    (dayNameEmpty (none : Option String) = false →
      (reportSave (State.mk [] [] [] [] [])
        { id := 1, teacher_id := 1, teacher_name := "t", title := "t",
          report_date := some ⟨2024, 1, 1⟩, day_name := none,
          category_id := none }).day_name = none) :=
  report_day_name_amended (State.mk [] [] [] [] [])
    { id := 1, teacher_id := 1, teacher_name := "t", title := "t",
      report_date := some ⟨2024, 1, 1⟩, day_name := none, category_id := none }
    ⟨2024, 1, 1⟩ rfl

/-- Updating a row in place keeps membership when the new row carries the old
row's primary key. -/
lemma mem_updateRoleById_self {roles : List Role} {r0 r2 : Role}
    (h : r0 ∈ roles) (hid : r0.id = r2.id) : r2 ∈ updateRoleById roles r2 := by
  unfold updateRoleById
  have := List.mem_map_of_mem (fun r => if r.id = r2.id then r2 else r) h
  simpa [hid] using this

/-- Every branch of the role sync leaves a role at `MANAGER_SLUG` with the
forced manager attributes when the department being saved sits at
`MANAGER_SLUG`. -/
lemma roleSync_manager_role (s : State) (d : Department) (old_slug : Option String)
    (role_name : String) (hd : d.slug = MANAGER_SLUG) :
    ∃ r ∈ (roleSync s d old_slug role_name).roles,
      r.slug = MANAGER_SLUG ∧ r.is_staff_by_default = true ∧
      r.can_view_all_reports = true := by
  have hgoc : ∃ r ∈ (getOrCreateRoleAndUpdate s d role_name).roles,
      r.slug = MANAGER_SLUG ∧ r.is_staff_by_default = true ∧
      r.can_view_all_reports = true := by
    cases hf : s.roles.find? (fun r => r.slug == d.slug) with
    | none =>
      refine ⟨createdRole s.roles d role_name, ?_, ?_⟩
      · unfold getOrCreateRoleAndUpdate
        rw [hf]
        exact List.mem_append_right _ (List.mem_singleton.mpr rfl)
      · simp [createdRole, hd]
    | some role =>
      have hmem : role ∈ s.roles := List.mem_of_find?_eq_some hf
      have hslug : role.slug = d.slug := by
        have := List.find?_some hf
        simpa using this
      refine ⟨updatedExistingRole d role_name role, ?_, ?_⟩
      · unfold getOrCreateRoleAndUpdate
        rw [hf]
        exact mem_updateRoleById_self hmem rfl
      · simp [updatedExistingRole, hslug, hd]
  unfold roleSync
  cases old_slug with
  | none => exact hgoc
  | some os =>
    by_cases hc : os ≠ "" ∧ os ≠ d.slug
    · simp only [if_pos hc]
      cases hold : s.roles.find? (fun r => r.slug == os) with
      | none => exact hgoc
      | some old_role =>
        have hrename : ∃ r ∈ (renameRole s d role_name old_role).roles,
            r.slug = MANAGER_SLUG ∧ r.is_staff_by_default = true ∧
            r.can_view_all_reports = true := by
          have hmem : old_role ∈ s.roles := List.mem_of_find?_eq_some hold
          refine ⟨renamedOldRole d role_name old_role, ?_, ?_⟩
          · exact mem_updateRoleById_self hmem rfl
          · simp [renamedOldRole, hd]
        cases htgt : s.roles.find? (fun r => r.slug == d.slug) with
        | none => exact hrename
        | some target =>
          by_cases hne : ¬ target.id = old_role.id
          · simp only [if_pos hne]
            have hmem : target ∈ s.roles := List.mem_of_find?_eq_some htgt
            have hslug : target.slug = d.slug := by
              have := List.find?_some htgt
              simpa using this
            refine ⟨mergedTargetRole d role_name old_role target, ?_, ?_⟩
            · refine List.mem_filter.mpr ⟨mem_updateRoleById_self hmem rfl, ?_⟩
              simp [mergedTargetRole, hne]
            · simp [mergedTargetRole, hslug, hd]
          · simp only [if_neg hne]
            exact hrename
    · simp only [if_neg hc]
      exact hgoc

/-- C9: the manager department is protected: deleting it raises a validation
error (the row survives), and saving a department that is or was at the
manager slug forces the fixed manager attribute values; its mirrored role is
forced to `is_staff_by_default` and `can_view_all_reports`. -/
theorem manager_department_protected (s : State) (d : Department)
    (hm : normalizeDeptSlug d = MANAGER_SLUG ∨ deptOldSlug s d = some MANAGER_SLUG) :
    (d.slug = MANAGER_SLUG →
      deptDelete s d = Except.error "لا يمكن حذف قسم المدير الدائم.") ∧
    (deptSave s d).2.slug = MANAGER_SLUG ∧
    (deptSave s d).2.name = MANAGER_NAME ∧
    (deptSave s d).2.role_label = MANAGER_ROLE_LABEL ∧
    (deptSave s d).2.is_active = true ∧
    ∃ r ∈ (deptSave s d).1.roles,
      r.slug = MANAGER_SLUG ∧ r.is_staff_by_default = true ∧
      r.can_view_all_reports = true := by
  have hdel : d.slug = MANAGER_SLUG →
      deptDelete s d = Except.error "لا يمكن حذف قسم المدير الدائم." := by
    intro hds
    simp [deptDelete, hds]
  refine ⟨hdel, ?_⟩
  by_cases hn : normalizeDeptSlug d = MANAGER_SLUG
  · simp +decide [deptSave, deptSaveFinal, deptSaveNormalized, hn]
    exact roleSync_manager_role _ _ _ _ rfl
  · have holdm : deptOldSlug s d = some MANAGER_SLUG := hm.resolve_left hn
    simp only [deptSave, deptSaveFinal, deptSaveNormalized]
    split_ifs with h1 h2 h3
    · refine ⟨rfl, rfl, rfl, rfl, ?_⟩
      exact roleSync_manager_role _ _ _ _ rfl
    · exact absurd ⟨holdm, hn⟩ h2
    · refine ⟨rfl, rfl, rfl, rfl, ?_⟩
      exact roleSync_manager_role _ _ _ _ rfl
    · exact absurd ⟨holdm, hn⟩ h3

/-- Witness for C9: saving and deleting the stored manager department. -/
theorem manager_department_protected_witness :
    ((⟨3, "الإدارة", "manager", "المدير", true, []⟩ : Department).slug = MANAGER_SLUG →
      deptDelete (State.mk [] [⟨3, "الإدارة", "manager", "المدير", true, []⟩] [] [] [])
          ⟨3, "الإدارة", "manager", "المدير", true, []⟩
        = Except.error "لا يمكن حذف قسم المدير الدائم.") ∧
    (deptSave (State.mk [] [⟨3, "الإدارة", "manager", "المدير", true, []⟩] [] [] [])
        ⟨3, "الإدارة", "manager", "المدير", true, []⟩).2.slug = MANAGER_SLUG ∧
    (deptSave (State.mk [] [⟨3, "الإدارة", "manager", "المدير", true, []⟩] [] [] [])
        ⟨3, "الإدارة", "manager", "المدير", true, []⟩).2.name = MANAGER_NAME ∧
    (deptSave (State.mk [] [⟨3, "الإدارة", "manager", "المدير", true, []⟩] [] [] [])
        ⟨3, "الإدارة", "manager", "المدير", true, []⟩).2.role_label = MANAGER_ROLE_LABEL ∧
    (deptSave (State.mk [] [⟨3, "الإدارة", "manager", "المدير", true, []⟩] [] [] [])
        ⟨3, "الإدارة", "manager", "المدير", true, []⟩).2.is_active = true ∧
    ∃ r ∈ (deptSave (State.mk [] [⟨3, "الإدارة", "manager", "المدير", true, []⟩] [] [] [])
        ⟨3, "الإدارة", "manager", "المدير", true, []⟩).1.roles,
      r.slug = MANAGER_SLUG ∧ r.is_staff_by_default = true ∧
      r.can_view_all_reports = true :=
  manager_department_protected
    (State.mk [] [⟨3, "الإدارة", "manager", "المدير", true, []⟩] [] [] [])
    ⟨3, "الإدارة", "manager", "المدير", true, []⟩ (Or.inr (by decide))

/-- A sample state: user 5 holds role `x` whose name matches department 1's
`role_label`, department 1 exposes report type `c`. -/
def sampleState : State :=
  State.mk [⟨10, "x", "N", false, false, [], true⟩]
    [⟨1, "Dept", "y", "N", true, [7]⟩] []
    [⟨5, "U", some 10, true, false, false, true⟩] [⟨7, "c", true⟩]

/-- The sample user of `sampleState`. -/
def sampleUser : Teacher := ⟨5, "U", some 10, true, false, false, true⟩

/-- Sample reports: one owned by user 5, one of category 7, one unrelated. -/
def sampleReports : List Report :=
  [⟨1, 5, "", "t", none, none, none⟩,
   ⟨2, 6, "", "t", none, none, some 7⟩,
   ⟨3, 6, "", "t", none, none, none⟩]

/-- C1: `restrict_queryset_for_user` returns the queryset unrestricted for a
superuser / `manager` role slug / `can_view_all_reports` role / resolved set
`"all"`; otherwise it returns exactly the rows whose teacher is the user or
whose category code lies in the resolved allowed-code set. -/
theorem restrict_queryset_for_user_spec (s : State) (u : Teacher)
    (qs : List Report) (hnd : qs.Nodup) :
    restrict_queryset_for_user s qs u =
      if u.is_superuser = true ∨ (userRole s u).map Role.slug = some "manager"
          ∨ ((userRole s u).map Role.can_view_all_reports).getD false = true
          ∨ "all" ∈ allowed_categories_for s u
      then qs
      else qs.filter (fun r =>
        decide (r.teacher_id = u.id ∨
          ∃ c ∈ ((r.category_id.bind
                (fun cid => s.reporttypes.find? (fun (rt : ReportType) => rt.id == cid))).map
              ReportType.code).toList,
            c ∈ allowed_categories_for s u)) := by
  unfold restrict_queryset_for_user
  by_cases h1 : u.is_superuser = true ∨ (userRole s u).map Role.slug = some "manager"
      ∨ ((userRole s u).map Role.can_view_all_reports).getD false = true
  · rw [if_pos h1, if_pos (by tauto)]
  · rw [if_neg h1]
    by_cases h2 : "all" ∈ allowed_categories_for s u
    · rw [if_pos h2, if_pos (by tauto)]
    · rw [if_neg h2, if_neg (by tauto)]
      have hcongr : ∀ r ∈ qs,
          ((r.teacher_id == u.id) ||
            (!(allowed_categories_for s u).isEmpty &&
              (match r.category_id.bind
                  (fun cid => s.reporttypes.find? (fun rt => rt.id == cid)) with
               | some rt => (allowed_categories_for s u).contains rt.code
               | none => false))) =
          decide (r.teacher_id = u.id ∨
            ∃ c ∈ ((r.category_id.bind
                  (fun cid => s.reporttypes.find? (fun (rt : ReportType) => rt.id == cid))).map
                ReportType.code).toList,
              c ∈ allowed_categories_for s u) := by
        intro r _
        cases hl : r.category_id.bind
            (fun cid => s.reporttypes.find? (fun rt => rt.id == cid)) with
        | none =>
          by_cases ht : r.teacher_id = u.id <;> simp [ht]
        | some rt =>
          by_cases hc : rt.code ∈ allowed_categories_for s u
          · have hne : ¬ (allowed_categories_for s u).isEmpty := by
              cases hal : allowed_categories_for s u with
              | nil => rw [hal] at hc; cases hc
              | cons a l => simp
            by_cases ht : r.teacher_id = u.id <;> simp [ht, hc, hne]
          · by_cases ht : r.teacher_id = u.id <;> simp [ht, hc]
      rw [List.filter_congr hcongr]
      exact List.dedup_eq_self.mpr (hnd.filter _)

/-- Witness for C1: a non-manager user sees exactly their own report and the
report in their allowed category. -/
theorem restrict_queryset_for_user_spec_witness :
    sampleReports.Nodup ∧
    restrict_queryset_for_user sampleState sampleReports sampleUser =
      if sampleUser.is_superuser = true
          ∨ (userRole sampleState sampleUser).map Role.slug = some "manager"
          ∨ ((userRole sampleState sampleUser).map Role.can_view_all_reports).getD false
              = true
          ∨ "all" ∈ allowed_categories_for sampleState sampleUser
      then sampleReports
      else sampleReports.filter (fun r =>
        decide (r.teacher_id = sampleUser.id ∨
          ∃ c ∈ ((r.category_id.bind
                (fun cid => sampleState.reporttypes.find?
                  (fun (rt : ReportType) => rt.id == cid))).map
              ReportType.code).toList,
            c ∈ allowed_categories_for sampleState sampleUser)) :=
  ⟨by decide,
   restrict_queryset_for_user_spec sampleState sampleUser sampleReports (by decide)⟩

/-- Every element of a list of naturals is bounded by the `foldr max 0`. -/
lemma le_foldr_max (l : List Nat) : ∀ x ∈ l, x ≤ l.foldr Nat.max 0 := by
  induction l with
  | nil => intro x hx; cases hx
  | cons a l ih =>
    intro x hx
    rcases List.mem_cons.mp hx with hx | hx
    · subst hx
      exact Nat.le_max_left _ _
    · exact le_trans (ih x hx) (Nat.le_max_right _ _)

/-- The fresh notification id is unused by the existing recipient rows (given
referential integrity of `notification_id`). -/
lemma fresh_notification_id_unused (db : NotificationDb)
    (hfk : ∀ rr ∈ db.recipients, ∃ n ∈ db.notifications, rr.notification_id = n.id) :
    ∀ rr ∈ db.recipients, ¬ rr.notification_id = freshNotificationId db := by
  intro rr h hc
  obtain ⟨n, hn, he⟩ := hfk rr h
  have hle : n.id ≤ (db.notifications.map Notification.id).foldr Nat.max 0 :=
    le_foldr_max _ _ (List.mem_map_of_mem _ hn)
  rw [he] at hc
  unfold freshNotificationId at hc
  omega

/-- The bulk-create fold of `notifications_create`: all created rows carry
the fresh notification id, teacher ids are collected without duplicates, and
a teacher id appears iff it was selected (or already accumulated). -/
lemma fanout_foldl (db : NotificationDb)
    (hfresh : ∀ rr ∈ db.recipients, ¬ rr.notification_id = freshNotificationId db) :
    ∀ (sel : List Nat) (acc : List NotificationRecipient),
      (∀ a ∈ acc, a.notification_id = freshNotificationId db) →
      ((acc.map (fun a => a.teacher_id)).Nodup) →
      (∀ a ∈ sel.foldl
          (fun acc2 tid =>
            if (db.recipients ++ acc2).any
                (fun rr => rr.notification_id == freshNotificationId db
                  && rr.teacher_id == tid) then acc2
            else acc2 ++ [⟨freshNotificationId db, tid, false⟩]) acc,
        a.notification_id = freshNotificationId db) ∧
      (((sel.foldl
          (fun acc2 tid =>
            if (db.recipients ++ acc2).any
                (fun rr => rr.notification_id == freshNotificationId db
                  && rr.teacher_id == tid) then acc2
            else acc2 ++ [⟨freshNotificationId db, tid, false⟩]) acc).map
          (fun a => a.teacher_id)).Nodup) ∧
      (∀ x, x ∈ (sel.foldl
          (fun acc2 tid =>
            if (db.recipients ++ acc2).any
                (fun rr => rr.notification_id == freshNotificationId db
                  && rr.teacher_id == tid) then acc2
            else acc2 ++ [⟨freshNotificationId db, tid, false⟩]) acc).map
          (fun a => a.teacher_id) ↔
        x ∈ acc.map (fun a => a.teacher_id) ∨ x ∈ sel) := by
  intro sel
  induction sel with
  | nil =>
    intro acc h1 h2
    exact ⟨h1, h2, by simp⟩
  | cons t ts ih =>
    intro acc h1 h2
    simp only [List.foldl_cons]
    by_cases hc : t ∈ acc.map (fun a => a.teacher_id)
    · have hany : ((db.recipients ++ acc).any
          (fun rr => rr.notification_id == freshNotificationId db
            && rr.teacher_id == t)) = true := by
        obtain ⟨a, ha, hat⟩ := List.mem_map.mp hc
        refine List.any_eq_true.mpr ⟨a, List.mem_append_right _ ha, ?_⟩
        simp [h1 a ha, hat]
      rw [hany]
      simp only [if_true]
      obtain ⟨g1, g2, g3⟩ := ih acc h1 h2
      refine ⟨g1, g2, ?_⟩
      intro x
      rw [g3 x]
      constructor
      · rintro (hx | hx)
        · exact Or.inl hx
        · exact Or.inr (List.mem_cons_of_mem _ hx)
      · rintro (hx | hx)
        · exact Or.inl hx
        · rcases List.mem_cons.mp hx with hx | hx
          · subst hx
            exact Or.inl hc
          · exact Or.inr hx
    · have hany : ((db.recipients ++ acc).any
          (fun rr => rr.notification_id == freshNotificationId db
            && rr.teacher_id == t)) = false := by
        rw [List.any_eq_false]
        intro a ha
        rcases List.mem_append.mp ha with ha | ha
        · simp only [Bool.and_eq_true, beq_iff_eq, not_and]
          intro hnid
          exact absurd hnid (hfresh a ha)
        · simp only [Bool.and_eq_true, beq_iff_eq, not_and]
          intro _ hat
          exact hc (List.mem_map.mpr ⟨a, ha, hat⟩)
      rw [hany, if_neg (by simp)]
      have h1' : ∀ a ∈ acc ++ [(⟨freshNotificationId db, t, false⟩ : NotificationRecipient)],
          a.notification_id = freshNotificationId db := by
        intro a ha
        rcases List.mem_append.mp ha with ha | ha
        · exact h1 a ha
        · rw [List.mem_singleton.mp ha]
      have h2' : (((acc ++ [(⟨freshNotificationId db, t, false⟩ : NotificationRecipient)]).map
          (fun a => a.teacher_id)).Nodup) := by
        rw [List.map_append]
        refine List.Nodup.append h2 (by simp) ?_
        intro x hx hy
        simp only [List.map_cons, List.map_nil, List.mem_singleton] at hy
        subst hy
        exact hc hx
      obtain ⟨g1, g2, g3⟩ := ih _ h1' h2'
      refine ⟨g1, g2, ?_⟩
      intro x
      rw [g3 x]
      simp only [List.map_append, List.mem_append, List.map_cons, List.map_nil,
        List.mem_singleton, List.mem_cons]
      tauto

/-- C7: creating a notification for a selection of teachers inserts exactly
one `Notification` row and one `NotificationRecipient` row per distinct
selected teacher, with no duplicate `(notification, teacher)` pair even if a
teacher is selected twice. -/
theorem notification_fanout (db : NotificationDb) (creator : Nat)
    (title message : String) (selected : List Nat)
    (hfk : ∀ rr ∈ db.recipients, ∃ n ∈ db.notifications, rr.notification_id = n.id) :
    (notifications_create db creator title message selected).notifications.length
        = db.notifications.length + 1 ∧
    ((((notifications_create db creator title message selected).recipients.filter
        (fun rr => rr.notification_id == freshNotificationId db)).map
        (fun rr => rr.teacher_id)).Nodup) ∧
    (∀ tid, tid ∈ (((notifications_create db creator title message selected).recipients.filter
        (fun rr => rr.notification_id == freshNotificationId db)).map
        (fun rr => rr.teacher_id)) ↔ tid ∈ selected) ∧
    ((notifications_create db creator title message selected).recipients.filter
        (fun rr => rr.notification_id == freshNotificationId db)).length
      = selected.dedup.length := by
  have hfresh := fresh_notification_id_unused db hfk
  obtain ⟨g1, g2, g3⟩ := fanout_foldl db hfresh selected [] (by intro a ha; cases ha) (by simp)
  have hfilter : (notifications_create db creator title message selected).recipients.filter
      (fun rr => rr.notification_id == freshNotificationId db) =
      selected.foldl
        (fun acc2 tid =>
          if (db.recipients ++ acc2).any
              (fun rr => rr.notification_id == freshNotificationId db
                && rr.teacher_id == tid) then acc2
          else acc2 ++ [⟨freshNotificationId db, tid, false⟩]) [] := by
    unfold notifications_create
    rw [List.filter_append]
    have hz : db.recipients.filter
        (fun rr => rr.notification_id == freshNotificationId db) = [] := by
      rw [List.filter_eq_nil_iff]
      intro a ha
      simpa using hfresh a ha
    rw [hz, List.nil_append]
    exact List.filter_eq_self.mpr (fun a ha => by simpa using g1 a ha)
  refine ⟨?_, ?_, ?_, ?_⟩
  · unfold notifications_create
    simp
  · rw [hfilter]
    exact g2
  · intro tid
    rw [hfilter, g3 tid]
    simp
  · rw [hfilter]
    have hlen : (selected.foldl
        (fun acc2 tid =>
          if (db.recipients ++ acc2).any
              (fun rr => rr.notification_id == freshNotificationId db
                && rr.teacher_id == tid) then acc2
          else acc2 ++ [⟨freshNotificationId db, tid, false⟩]) []).length =
        ((selected.foldl
          (fun acc2 tid =>
            if (db.recipients ++ acc2).any
                (fun rr => rr.notification_id == freshNotificationId db
                  && rr.teacher_id == tid) then acc2
            else acc2 ++ [⟨freshNotificationId db, tid, false⟩]) []).map
          (fun a => a.teacher_id)).length := by
      rw [List.length_map]
    rw [hlen]
    have hmemiff : ∀ x, x ∈ ((selected.foldl
        (fun acc2 tid =>
          if (db.recipients ++ acc2).any
              (fun rr => rr.notification_id == freshNotificationId db
                && rr.teacher_id == tid) then acc2
          else acc2 ++ [⟨freshNotificationId db, tid, false⟩]) []).map
        (fun a => a.teacher_id)) ↔ x ∈ selected.dedup := by
      intro x
      rw [g3 x, List.mem_dedup]
      simp
    have hfin : ((selected.foldl
        (fun acc2 tid =>
          if (db.recipients ++ acc2).any
              (fun rr => rr.notification_id == freshNotificationId db
                && rr.teacher_id == tid) then acc2
          else acc2 ++ [⟨freshNotificationId db, tid, false⟩]) []).map
        (fun a => a.teacher_id)).toFinset = selected.dedup.toFinset := by
      ext x
      rw [List.mem_toFinset, List.mem_toFinset]
      exact hmemiff x
    calc ((selected.foldl
        (fun acc2 tid =>
          if (db.recipients ++ acc2).any
              (fun rr => rr.notification_id == freshNotificationId db
                && rr.teacher_id == tid) then acc2
          else acc2 ++ [⟨freshNotificationId db, tid, false⟩]) []).map
        (fun a => a.teacher_id)).length
        = ((selected.foldl
          (fun acc2 tid =>
            if (db.recipients ++ acc2).any
                (fun rr => rr.notification_id == freshNotificationId db
                  && rr.teacher_id == tid) then acc2
            else acc2 ++ [⟨freshNotificationId db, tid, false⟩]) []).map
          (fun a => a.teacher_id)).toFinset.card := (List.toFinset_card_of_nodup g2).symm
      _ = selected.dedup.toFinset.card := by rw [hfin]
      _ = selected.dedup.length := List.toFinset_card_of_nodup (List.nodup_dedup _)

/-- Witness for C7: four selections with one duplicate yield three recipient
rows on a database that already holds one notification. -/
theorem notification_fanout_witness :
    (notifications_create (NotificationDb.mk [⟨1, "a", "b", none⟩] [⟨1, 9, false⟩])
        9 "t" "m" [4, 5, 4, 6]).notifications.length
      = (NotificationDb.mk [⟨1, "a", "b", none⟩] [⟨1, 9, false⟩]).notifications.length + 1 ∧
    ((((notifications_create (NotificationDb.mk [⟨1, "a", "b", none⟩] [⟨1, 9, false⟩])
        9 "t" "m" [4, 5, 4, 6]).recipients.filter
        (fun rr => rr.notification_id
          == freshNotificationId (NotificationDb.mk [⟨1, "a", "b", none⟩] [⟨1, 9, false⟩]))).map
        (fun rr => rr.teacher_id)).Nodup) ∧
    (∀ tid, tid ∈ (((notifications_create
        (NotificationDb.mk [⟨1, "a", "b", none⟩] [⟨1, 9, false⟩])
        9 "t" "m" [4, 5, 4, 6]).recipients.filter
        (fun rr => rr.notification_id
          == freshNotificationId (NotificationDb.mk [⟨1, "a", "b", none⟩] [⟨1, 9, false⟩]))).map
        (fun rr => rr.teacher_id)) ↔ tid ∈ [4, 5, 4, 6]) ∧
    ((notifications_create (NotificationDb.mk [⟨1, "a", "b", none⟩] [⟨1, 9, false⟩])
        9 "t" "m" [4, 5, 4, 6]).recipients.filter
        (fun rr => rr.notification_id
          == freshNotificationId (NotificationDb.mk [⟨1, "a", "b", none⟩] [⟨1, 9, false⟩]))).length
      = ([4, 5, 4, 6] : List Nat).dedup.length :=
  notification_fanout (NotificationDb.mk [⟨1, "a", "b", none⟩] [⟨1, 9, false⟩])
    9 "t" "m" [4, 5, 4, 6] (by decide)

/-- `updateRoleById` preserves the primary keys. -/
lemma updateRoleById_map_id (l : List Role) (r2 : Role) :
    (updateRoleById l r2).map Role.id = l.map Role.id := by
  induction l with
  | nil => rfl
  | cons a l ih =>
    by_cases h : a.id = r2.id
    · simp only [updateRoleById, List.map_cons, if_pos h] at ih ⊢
      rw [ih, h]
    · simp only [updateRoleById, List.map_cons, if_neg h] at ih ⊢
      rw [ih]

/-- Filtering a role list by the key of one of its rows yields only that row
when the keys are duplicate-free. -/
lemma filter_key_single {β : Type} [DecidableEq β] (key : Role → β) :
    ∀ (l : List Role) (t : Role), (l.map key).Nodup → t ∈ l →
      l.filter (fun r => key r == key t) = [t] := by
  intro l
  induction l with
  | nil => intro t _ ht; cases ht
  | cons a l ih =>
    intro t hn ht
    rw [List.map_cons, List.nodup_cons] at hn
    rcases List.mem_cons.mp ht with rfl | ht2
    · rw [List.filter_cons, if_pos (by simp)]
      have hrest : l.filter (fun r => key r == key t) = [] := by
        rw [List.filter_eq_nil_iff]
        intro x hx
        simp only [beq_iff_eq]
        intro he
        exact hn.1 (he ▸ List.mem_map_of_mem key hx)
      rw [hrest]
    · have hne : ¬ (key a == key t) = true := by
        simp only [beq_iff_eq]
        intro he
        exact hn.1 (he ▸ List.mem_map_of_mem key ht2)
      rw [List.filter_cons, if_neg hne]
      exact ih t hn.2 ht2

/-- `countP` splits across a filter partition. -/
lemma countP_split (l : List Role) (p q : Role → Bool) :
    l.countP p = (l.filter q).countP p + (l.filter (fun r => !q r)).countP p := by
  conv_lhs => rw [← (List.filter_append_perm q l).countP_eq p]
  rw [List.countP_append]

/-- A slug occurs exactly once in a slug-unique role list that contains it. -/
lemma countP_slug_one {l : List Role} {t : Role} {S : String}
    (hsln : (l.map Role.slug).Nodup) (ht : t ∈ l) (hts : t.slug = S) :
    l.countP (fun r => r.slug == S) = 1 := by
  rw [List.countP_eq_length_filter, ← hts,
    filter_key_single Role.slug l t hsln ht]
  rfl

/-- Elements of an `updateRoleById` are the new row or untouched old rows. -/
lemma mem_updateRoleById (l : List Role) (r2 : Role) :
    ∀ x ∈ updateRoleById l r2, x = r2 ∨ (x ∈ l ∧ ¬ x.id = r2.id) := by
  intro x hx
  obtain ⟨y, hy, hyx⟩ := List.mem_map.mp hx
  by_cases h : y.id = r2.id
  · left
    rw [← hyx, if_pos h]
  · right
    rw [← hyx, if_neg h]
    exact ⟨hy, h⟩

/-- Rows with a different primary key are untouched by `updateRoleById`. -/
lemma updateRoleById_filter_ne (l : List Role) (r2 : Role) :
    (updateRoleById l r2).filter (fun r => !(r.id == r2.id)) =
      l.filter (fun r => !(r.id == r2.id)) := by
  induction l with
  | nil => rfl
  | cons a l ih =>
    by_cases h : a.id = r2.id
    · simp only [updateRoleById, List.map_cons, if_pos h] at ih ⊢
      rw [List.filter_cons, List.filter_cons, if_neg (by simp), if_neg (by simp [h])]
      exact ih
    · simp only [updateRoleById, List.map_cons, if_neg h] at ih ⊢
      rw [List.filter_cons, List.filter_cons]
      by_cases h2 : (!(a.id == r2.id)) = true
      · rw [if_pos h2, if_pos h2, ih]
      · rw [if_neg h2, if_neg h2]
        exact ih

/-- How `countP` changes under an in-place row update keyed by a unique id. -/
lemma countP_updateRoleById (l : List Role) (r2 t : Role) (p : Role → Bool)
    (hn : (l.map Role.id).Nodup) (ht : t ∈ l) (hid : t.id = r2.id) :
    (updateRoleById l r2).countP p + (if p t then 1 else 0)
      = l.countP p + (if p r2 then 1 else 0) := by
  have hsplit1 : l.countP p =
      (l.filter (fun r => r.id == r2.id)).countP p +
      (l.filter (fun r => !(r.id == r2.id))).countP p :=
    countP_split l p (fun r => r.id == r2.id)
  have hfil1 : l.filter (fun r => r.id == r2.id) = [t] := by
    rw [← hid]
    exact filter_key_single Role.id l t hn ht
  have hn2 : ((updateRoleById l r2).map Role.id).Nodup := by
    rw [updateRoleById_map_id]
    exact hn
  have hr2mem : r2 ∈ updateRoleById l r2 := mem_updateRoleById_self ht hid
  have hsplit2 : (updateRoleById l r2).countP p =
      ((updateRoleById l r2).filter (fun r => r.id == r2.id)).countP p +
      ((updateRoleById l r2).filter (fun r => !(r.id == r2.id))).countP p :=
    countP_split _ p (fun r => r.id == r2.id)
  have hfil2 : (updateRoleById l r2).filter (fun r => r.id == r2.id) = [r2] :=
    filter_key_single Role.id _ r2 hn2 hr2mem
  rw [hfil1] at hsplit1
  rw [hfil2, updateRoleById_filter_ne] at hsplit2
  have hsing : ∀ x : Role, ([x].countP p) = if p x then 1 else 0 := by
    intro x
    by_cases hx : p x = true <;> simp [List.countP_cons, hx]
  rw [hsing] at hsplit1 hsplit2
  omega

/-- The `get_or_create` arm leaves exactly one role at the department's slug,
with `is_active` mirrored. -/
lemma goc_count (s : State) (d : Department) (role_name : String)
    (hidn : (s.roles.map Role.id).Nodup) (hsln : (s.roles.map Role.slug).Nodup) :
    ((getOrCreateRoleAndUpdate s d role_name).roles.countP
        (fun r => r.slug == d.slug) = 1) ∧
    ∀ r ∈ (getOrCreateRoleAndUpdate s d role_name).roles,
      r.slug = d.slug → r.is_active = d.is_active := by
  unfold getOrCreateRoleAndUpdate
  cases hf : s.roles.find? (fun r => r.slug == d.slug) with
  | none =>
    have hnone : ∀ r ∈ s.roles, ¬ r.slug = d.slug := by
      intro r hr
      have := List.find?_eq_none.mp hf r hr
      simpa using this
    constructor
    · rw [List.countP_append,
        List.countP_eq_zero.mpr (fun r hr => by simpa using hnone r hr)]
      simp [createdRole]
    · intro r hr hslug
      rcases List.mem_append.mp hr with hr | hr
      · exact absurd hslug (hnone r hr)
      · rw [List.mem_singleton.mp hr]
        rfl
  | some role =>
    have hmem : role ∈ s.roles := List.mem_of_find?_eq_some hf
    have hslug : role.slug = d.slug := by
      have := List.find?_some hf
      simpa using this
    have hcnt := countP_updateRoleById s.roles (updatedExistingRole d role_name role)
      role (fun r => r.slug == d.slug) hidn hmem rfl
    have hone : s.roles.countP (fun r => r.slug == d.slug) = 1 :=
      countP_slug_one hsln hmem hslug
    have hpt : ((fun (r : Role) => r.slug == d.slug) role) = true := by
      simpa using hslug
    have hpr2 : ((fun (r : Role) => r.slug == d.slug)
        (updatedExistingRole d role_name role)) = true := by
      simp only [updatedExistingRole]
      simpa using hslug
    constructor
    · rw [hpt, hpr2, hone] at hcnt
      simpa using hcnt
    · intro r hr hs2
      rcases mem_updateRoleById _ _ r hr with rfl | ⟨hrl, hne⟩
      · rfl
      · have heq : r = role :=
          List.inj_on_of_nodup_map hsln hrl hmem (by rw [hs2, hslug])
        rw [heq] at hne
        exact absurd rfl hne

/-- The rename arm moves the old role to the (previously unused) new slug:
afterwards exactly one role carries it, `is_active` mirrored. -/
lemma rename_count (s : State) (d : Department) (role_name : String)
    (old_role : Role)
    (hidn : (s.roles.map Role.id).Nodup)
    (hmem : old_role ∈ s.roles)
    (hnos : ¬ old_role.slug = d.slug)
    (hnotgt : ∀ r ∈ s.roles, ¬ r.slug = d.slug) :
    ((renameRole s d role_name old_role).roles.countP
        (fun r => r.slug == d.slug) = 1) ∧
    ∀ r ∈ (renameRole s d role_name old_role).roles,
      r.slug = d.slug → r.is_active = d.is_active := by
  unfold renameRole
  have hcnt := countP_updateRoleById s.roles (renamedOldRole d role_name old_role)
    old_role (fun r => r.slug == d.slug) hidn hmem rfl
  have hzero : s.roles.countP (fun r => r.slug == d.slug) = 0 :=
    List.countP_eq_zero.mpr (fun r hr => by simpa using hnotgt r hr)
  have hpt : ((fun (r : Role) => r.slug == d.slug) old_role) = false := by
    simpa using hnos
  have hpo3 : ((fun (r : Role) => r.slug == d.slug)
      (renamedOldRole d role_name old_role)) = true := by
    simp [renamedOldRole]
  constructor
  · rw [hpt, hpo3, hzero] at hcnt
    simpa using hcnt
  · intro r hr hs2
    rcases mem_updateRoleById _ _ r hr with rfl | ⟨hrl, _⟩
    · rfl
    · exact absurd hs2 (hnotgt r hrl)

/-- The merge arm keeps exactly one role at the new slug (the target, with
`is_active` mirrored) and deletes the old role. -/
lemma merge_count (s : State) (d : Department) (role_name : String)
    (old_role target : Role)
    (hidn : (s.roles.map Role.id).Nodup) (hsln : (s.roles.map Role.slug).Nodup)
    (hmemo : old_role ∈ s.roles) (hmemt : target ∈ s.roles)
    (htslug : target.slug = d.slug) (hoslug : ¬ old_role.slug = d.slug)
    (hne : ¬ target.id = old_role.id) :
    ((mergeRoles s d role_name old_role target).roles.countP
        (fun r => r.slug == d.slug) = 1) ∧
    ∀ r ∈ (mergeRoles s d role_name old_role target).roles,
      r.slug = d.slug → r.is_active = d.is_active := by
  unfold mergeRoles
  have hcnt := countP_updateRoleById s.roles
    (mergedTargetRole d role_name old_role target) target
    (fun r => r.slug == d.slug) hidn hmemt rfl
  have hone : s.roles.countP (fun r => r.slug == d.slug) = 1 :=
    countP_slug_one hsln hmemt htslug
  have hpt : ((fun (r : Role) => r.slug == d.slug) target) = true := by
    simpa using htslug
  have hpm : ((fun (r : Role) => r.slug == d.slug)
      (mergedTargetRole d role_name old_role target)) = true := by
    simp only [mergedTargetRole]
    simpa using htslug
  have hupd : (updateRoleById s.roles
      (mergedTargetRole d role_name old_role target)).countP
      (fun r => r.slug == d.slug) = 1 := by
    rw [hpt, hpm, hone] at hcnt
    simpa using hcnt
  have hmain : ∀ r ∈ updateRoleById s.roles
      (mergedTargetRole d role_name old_role target),
      r.slug = d.slug →
        r = mergedTargetRole d role_name old_role target := by
    intro r hr hs2
    rcases mem_updateRoleById _ _ r hr with rfl | ⟨hrl, hne2⟩
    · rfl
    · have heq : r = target :=
        List.inj_on_of_nodup_map hsln hrl hmemt (by rw [hs2, htslug])
      rw [heq] at hne2
      exact absurd rfl hne2
  constructor
  · rw [List.countP_filter]
    have hcongr : ∀ r ∈ updateRoleById s.roles
        (mergedTargetRole d role_name old_role target),
        (((r.slug == d.slug) && !(r.id == old_role.id)) = true ↔
          (r.slug == d.slug) = true) := by
      intro r hr
      by_cases hp : (r.slug == d.slug) = true
      · have := hmain r hr (by simpa using hp)
        subst this
        simp only [mergedTargetRole] at hne ⊢
        simp [hp, hne]
      · simp [hp]
    rw [List.countP_congr hcongr]
    exact hupd
  · intro r hr hs2
    have hr2 := List.mem_filter.mp hr
    have := hmain r hr2.1 hs2
    subst this
    rfl

/-- The role-sync block of `Department.save` leaves exactly one role at the
saved department's slug, with `is_active` mirrored. -/
lemma roleSync_count (s : State) (d : Department) (old_slug : Option String)
    (role_name : String)
    (hidn : (s.roles.map Role.id).Nodup) (hsln : (s.roles.map Role.slug).Nodup) :
    ((roleSync s d old_slug role_name).roles.countP
        (fun r => r.slug == d.slug) = 1) ∧
    ∀ r ∈ (roleSync s d old_slug role_name).roles,
      r.slug = d.slug → r.is_active = d.is_active := by
  unfold roleSync
  cases old_slug with
  | none => exact goc_count s d role_name hidn hsln
  | some os =>
    by_cases hc : os ≠ "" ∧ os ≠ d.slug
    · simp only [if_pos hc]
      cases hold : s.roles.find? (fun r => r.slug == os) with
      | none => exact goc_count s d role_name hidn hsln
      | some old_role =>
        have hmemo : old_role ∈ s.roles := List.mem_of_find?_eq_some hold
        have hoslug : old_role.slug = os := by
          have := List.find?_some hold
          simpa using this
        have hnos : ¬ old_role.slug = d.slug := by
          rw [hoslug]
          exact hc.2
        cases htgt : s.roles.find? (fun r => r.slug == d.slug) with
        | none =>
          have hnotgt : ∀ r ∈ s.roles, ¬ r.slug = d.slug := by
            intro r hr
            have := List.find?_eq_none.mp htgt r hr
            simpa using this
          exact rename_count s d role_name old_role hidn hmemo hnos hnotgt
        | some target =>
          have hmemt : target ∈ s.roles := List.mem_of_find?_eq_some htgt
          have htslug : target.slug = d.slug := by
            have := List.find?_some htgt
            simpa using this
          by_cases hne : ¬ target.id = old_role.id
          · simp only [if_pos hne]
            exact merge_count s d role_name old_role target hidn hsln hmemo hmemt
              htslug hnos hne
          · simp only [if_neg hne]
            push_neg at hne
            have : target = old_role :=
              List.inj_on_of_nodup_map hidn hmemt hmemo hne
            rw [this] at htslug
            exact absurd htslug hnos
    · simp only [if_neg hc]
      exact goc_count s d role_name hidn hsln

/-- C4: after `Department.save`, exactly one role carries the saved
department's (normalized) slug, and that role's `is_active` equals the
department's. -/
theorem department_save_role_mirror (s : State) (d : Department)
    (hidn : (s.roles.map Role.id).Nodup) (hsln : (s.roles.map Role.slug).Nodup) :
    ((deptSave s d).1.roles.countP
        (fun r => r.slug == (deptSave s d).2.slug) = 1) ∧
    ∀ r ∈ (deptSave s d).1.roles,
      r.slug = (deptSave s d).2.slug → r.is_active = (deptSave s d).2.is_active :=
  roleSync_count { s with departments := upsertDept s.departments (deptSaveFinal s d) }
    (deptSaveFinal s d) (deptOldSlug s d) (deptRoleName d) hidn hsln

/-- Witness for C4 at a concrete renaming save (merge path). -/
theorem department_save_role_mirror_witness :
    (((State.mk [⟨10, "old", "Old", false, false, [7], true⟩,
        ⟨11, "new", "New", false, false, [], true⟩]
        [⟨1, "D", "old", "L", true, []⟩] []
        [⟨5, "T", some 10, true, false, false, true⟩]
        [⟨7, "c", true⟩]).roles.map Role.id).Nodup) ∧
    (((State.mk [⟨10, "old", "Old", false, false, [7], true⟩,
        ⟨11, "new", "New", false, false, [], true⟩]
        [⟨1, "D", "old", "L", true, []⟩] []
        [⟨5, "T", some 10, true, false, false, true⟩]
        [⟨7, "c", true⟩]).roles.map Role.slug).Nodup) ∧
    (((deptSave (State.mk [⟨10, "old", "Old", false, false, [7], true⟩,
        ⟨11, "new", "New", false, false, [], true⟩]
        [⟨1, "D", "old", "L", true, []⟩] []
        [⟨5, "T", some 10, true, false, false, true⟩]
        [⟨7, "c", true⟩]) ⟨1, "D", "new", "L", true, []⟩).1.roles.countP
      (fun r => r.slug == (deptSave (State.mk [⟨10, "old", "Old", false, false, [7], true⟩,
        ⟨11, "new", "New", false, false, [], true⟩]
        [⟨1, "D", "old", "L", true, []⟩] []
        [⟨5, "T", some 10, true, false, false, true⟩]
        [⟨7, "c", true⟩]) ⟨1, "D", "new", "L", true, []⟩).2.slug) = 1) ∧
    ∀ r ∈ (deptSave (State.mk [⟨10, "old", "Old", false, false, [7], true⟩,
        ⟨11, "new", "New", false, false, [], true⟩]
        [⟨1, "D", "old", "L", true, []⟩] []
        [⟨5, "T", some 10, true, false, false, true⟩]
        [⟨7, "c", true⟩]) ⟨1, "D", "new", "L", true, []⟩).1.roles,
      r.slug = (deptSave (State.mk [⟨10, "old", "Old", false, false, [7], true⟩,
        ⟨11, "new", "New", false, false, [], true⟩]
        [⟨1, "D", "old", "L", true, []⟩] []
        [⟨5, "T", some 10, true, false, false, true⟩]
        [⟨7, "c", true⟩]) ⟨1, "D", "new", "L", true, []⟩).2.slug →
        r.is_active = (deptSave (State.mk [⟨10, "old", "Old", false, false, [7], true⟩,
        ⟨11, "new", "New", false, false, [], true⟩]
        [⟨1, "D", "old", "L", true, []⟩] []
        [⟨5, "T", some 10, true, false, false, true⟩]
        [⟨7, "c", true⟩]) ⟨1, "D", "new", "L", true, []⟩).2.is_active) :=
  ⟨by decide, by decide,
   department_save_role_mirror
     (State.mk [⟨10, "old", "Old", false, false, [7], true⟩,
       ⟨11, "new", "New", false, false, [], true⟩]
       [⟨1, "D", "old", "L", true, []⟩] []
       [⟨5, "T", some 10, true, false, false, true⟩]
       [⟨7, "c", true⟩]) ⟨1, "D", "new", "L", true, []⟩ (by decide) (by decide)⟩

/-- The normalization steps never change the (already normalized) slug. -/
lemma deptSaveNormalized_slug (d : Department) :
    (deptSaveNormalized d).slug = normalizeDeptSlug d := by
  simp only [deptSaveNormalized]
  split_ifs <;> rfl

/-- C5: saving a department whose slug is renamed onto an existing distinct
role merges the roles: teachers of the old role now reference the target
role, the target gains the old role's allowed-report-type links, and the old
role is gone.  (The protected manager slug is excluded: its renames are
reverted, see C9.) -/
theorem department_slug_rename_merges_roles
    (s : State) (d : Department) (os : String) (old_role target : Role)
    (hidn : (s.roles.map Role.id).Nodup)
    (hsln : (s.roles.map Role.slug).Nodup)
    (holdslug : deptOldSlug s d = some os)
    (hos1 : os ≠ "") (hos2 : os ≠ MANAGER_SLUG)
    (hns : normalizeDeptSlug d ≠ os)
    (hold : s.roles.find? (fun r => r.slug == os) = some old_role)
    (htgt : s.roles.find? (fun r => r.slug == normalizeDeptSlug d) = some target) :
    (∀ t ∈ s.teachers, t.role_id = some old_role.id →
      ∃ t2 ∈ (deptSave s d).1.teachers, t2.id = t.id ∧ t2.role_id = some target.id) ∧
    (∃ tr ∈ (deptSave s d).1.roles, tr.id = target.id ∧
      ∀ c ∈ old_role.allowed_reporttypes, c ∈ tr.allowed_reporttypes) ∧
    (∀ r ∈ (deptSave s d).1.roles, ¬ r.id = old_role.id) := by
  have hd4 : deptSaveFinal s d = deptSaveNormalized d := by
    unfold deptSaveFinal
    rw [if_neg]
    rintro ⟨h1, -⟩
    rw [holdslug] at h1
    exact hos2 (Option.some.injEq _ _ ▸ h1)
  have hslug4 : (deptSaveFinal s d).slug = normalizeDeptSlug d := by
    rw [hd4]
    exact deptSaveNormalized_slug d
  have hmemo : old_role ∈ s.roles := List.mem_of_find?_eq_some hold
  have hmemt : target ∈ s.roles := List.mem_of_find?_eq_some htgt
  have hoslug : old_role.slug = os := by
    have := List.find?_some hold
    simpa using this
  have htslug : target.slug = normalizeDeptSlug d := by
    have := List.find?_some htgt
    simpa using this
  have hne : ¬ target.id = old_role.id := by
    intro he
    have : target = old_role := List.inj_on_of_nodup_map hidn hmemt hmemo he
    rw [this, hoslug] at htslug
    exact hns htslug.symm
  have hmerge : (deptSave s d).1 =
      mergeRoles { s with departments := upsertDept s.departments (deptSaveFinal s d) }
        (deptSaveFinal s d) (deptRoleName d) old_role target := by
    show roleSync { s with departments := upsertDept s.departments (deptSaveFinal s d) }
        (deptSaveFinal s d) (deptOldSlug s d) (deptRoleName d) = _
    rw [holdslug]
    unfold roleSync
    have hc : os ≠ "" ∧ os ≠ (deptSaveFinal s d).slug := by
      refine ⟨hos1, ?_⟩
      rw [hslug4]
      exact fun he => hns he.symm
    simp only [if_pos hc]
    have hfind1 : ({ s with departments := upsertDept s.departments (deptSaveFinal s d)
        } : State).roles.find? (fun r => r.slug == os) = some old_role := hold
    have hfind2 : ({ s with departments := upsertDept s.departments (deptSaveFinal s d)
        } : State).roles.find? (fun r => r.slug == (deptSaveFinal s d).slug)
        = some target := by
      show s.roles.find? (fun r => r.slug == (deptSaveFinal s d).slug) = some target
      rw [hslug4]
      exact htgt
    rw [hfind1, hfind2]
    simp only [if_pos hne]
  rw [hmerge]
  refine ⟨?_, ?_, ?_⟩
  · intro t ht htr
    unfold mergeRoles
    refine ⟨{ t with role_id := some target.id }, ?_, rfl, rfl⟩
    have := List.mem_map_of_mem
      (fun t2 : Teacher => if t2.role_id = some old_role.id
        then { t2 with role_id := some target.id } else t2) ht
    simpa [htr] using this
  · unfold mergeRoles
    refine ⟨mergedTargetRole (deptSaveFinal s d) (deptRoleName d) old_role target,
      ?_, rfl, ?_⟩
    · refine List.mem_filter.mpr ⟨mem_updateRoleById_self hmemt rfl, ?_⟩
      simp only [mergedTargetRole]
      simp [hne]
    · intro c hc
      simp only [mergedTargetRole, List.mem_append]
      by_cases hct : c ∈ target.allowed_reporttypes
      · exact Or.inl hct
      · refine Or.inr (List.mem_filter.mpr ⟨hc, ?_⟩)
        simpa using hct
  · intro r hr
    unfold mergeRoles at hr
    have := (List.mem_filter.mp hr).2
    simpa using this

/-- Witness for C5: renaming department `old` to `new` merges role 10 into
role 11 (teacher 5 repointed, link 7 carried over, role 10 deleted). -/
theorem department_slug_rename_merges_roles_witness :
    ((∀ t ∈ (State.mk [⟨10, "old", "Old", false, false, [7], true⟩,
        ⟨11, "new", "New", false, false, [], true⟩]
        [⟨1, "D", "old", "L", true, []⟩] []
        [⟨5, "T", some 10, true, false, false, true⟩]
        [⟨7, "c", true⟩]).teachers, t.role_id = some 10 →
      ∃ t2 ∈ (deptSave (State.mk [⟨10, "old", "Old", false, false, [7], true⟩,
          ⟨11, "new", "New", false, false, [], true⟩]
          [⟨1, "D", "old", "L", true, []⟩] []
          [⟨5, "T", some 10, true, false, false, true⟩]
          [⟨7, "c", true⟩]) ⟨1, "D", "new", "L", true, []⟩).1.teachers,
        t2.id = t.id ∧ t2.role_id = some 11) ∧
    (∃ tr ∈ (deptSave (State.mk [⟨10, "old", "Old", false, false, [7], true⟩,
        ⟨11, "new", "New", false, false, [], true⟩]
        [⟨1, "D", "old", "L", true, []⟩] []
        [⟨5, "T", some 10, true, false, false, true⟩]
        [⟨7, "c", true⟩]) ⟨1, "D", "new", "L", true, []⟩).1.roles,
      tr.id = 11 ∧ ∀ c ∈ [7], c ∈ tr.allowed_reporttypes) ∧
    (∀ r ∈ (deptSave (State.mk [⟨10, "old", "Old", false, false, [7], true⟩,
        ⟨11, "new", "New", false, false, [], true⟩]
        [⟨1, "D", "old", "L", true, []⟩] []
        [⟨5, "T", some 10, true, false, false, true⟩]
        [⟨7, "c", true⟩]) ⟨1, "D", "new", "L", true, []⟩).1.roles, ¬ r.id = 10)) :=
  department_slug_rename_merges_roles
    (State.mk [⟨10, "old", "Old", false, false, [7], true⟩,
      ⟨11, "new", "New", false, false, [], true⟩]
      [⟨1, "D", "old", "L", true, []⟩] []
      [⟨5, "T", some 10, true, false, false, true⟩]
      [⟨7, "c", true⟩]) ⟨1, "D", "new", "L", true, []⟩ "old"
    ⟨10, "old", "Old", false, false, [7], true⟩
    ⟨11, "new", "New", false, false, [], true⟩
    (by decide) (by decide) (by decide) (by decide) (by decide)
    (by decide) (by decide) (by decide)

/-- Officer discovery exactly as claim C2 words it: an officer
`DepartmentMembership` on an active department, or the legacy fallback
matching the role's slug to the department's slug. -/
def claim_is_officer (s : State) (u : Teacher) (d : Department) : Prop :=
  (d.is_active = true ∧ ∃ m ∈ s.memberships,
    m.teacher_id = u.id ∧ m.department_id = d.id ∧ m.role_type = "officer") ∨
  (d.is_active = true ∧ (userRole s u).map Role.slug = some d.slug)

/-- Membership in the allowed-code union exactly as claim C2 words it for a
non-`"all"` user: a code of `role.allowed_reporttypes`, or a code of the
`reporttypes` of a department where the user is an officer. -/
def claim_allowed_mem (s : State) (u : Teacher) (c : String) : Prop :=
  (∃ rt ∈ s.reporttypes,
    rt.id ∈ ((userRole s u).map Role.allowed_reporttypes).getD [] ∧ rt.code = c) ∨
  (∃ d ∈ s.departments, claim_is_officer s u d ∧
    ∃ rt ∈ s.reporttypes, rt.id ∈ d.reporttypes ∧ rt.code = c)

/-- C2 counterexample: in `sampleState` the user's role slug `x` matches no
department, but the role's name `N` matches department 1's `role_label`
case-insensitively, so the code resolves the allowed set to `{"c"}` — while
the claim's union (role codes ∪ slug-matched/membership officer departments)
is empty. -/
theorem allowed_categories_for_claim_cex :
    allowed_categories_for sampleState sampleUser = ["c"] ∧
    ¬ claim_allowed_mem sampleState sampleUser "c" := by
  constructor
  · decide
  · unfold claim_allowed_mem claim_is_officer
    decide

/-- Officer discovery as amended: claim C2's discovery extended by the
label fallback the source implements — when no active department matches the
role's (truthy) slug, the active department whose `role_label` equals the
role's (truthy) `name` case-insensitively. -/
def amended_is_officer (s : State) (u : Teacher) (d : Department) : Prop :=
  (d.is_active = true ∧ ∃ m ∈ s.memberships,
    m.teacher_id = u.id ∧ m.department_id = d.id ∧ m.role_type = "officer") ∨
  (d.is_active = true ∧
    (((userRole s u).map Role.slug = some d.slug ∧ d.slug ≠ "") ∨
     ((¬ ∃ d2 ∈ s.departments, d2.is_active = true ∧ d2.slug ≠ ""
          ∧ (userRole s u).map Role.slug = some d2.slug) ∧
      ((userRole s u).map Role.name).getD "" ≠ "" ∧
      (userRole s u).map (fun ro => strLower ro.name) = some (strLower d.role_label))))

/-- `find?` of a predicate satisfied by at most one element finds exactly the
satisfying member. -/
lemma find?_eq_some_iff_unique {α : Type} {p : α → Bool} {l : List α}
    (huniq : ∀ x ∈ l, ∀ y ∈ l, p x = true → p y = true → x = y) (a : α) :
    l.find? p = some a ↔ a ∈ l ∧ p a = true := by
  constructor
  · intro h
    exact ⟨List.mem_of_find?_eq_some h, List.find?_some h⟩
  · rintro ⟨hm, hp⟩
    cases hf : l.find? p with
    | none =>
      have := List.find?_eq_none.mp hf a hm
      exact absurd hp this
    | some y =>
      have hy := List.mem_of_find?_eq_some hf
      have hpy := List.find?_some hf
      exact congrArg some (huniq y hy a hm hpy hp)

/-- Departments with equal primary keys coincide when pks are unique. -/
lemma dept_id_inj {s : State}
    (hdid : (s.departments.map Department.id).Nodup) :
    ∀ x ∈ s.departments, ∀ y ∈ s.departments, x.id = y.id → x = y :=
  fun x hx y hy he => List.inj_on_of_nodup_map hdid hx hy he

/-- Membership characterization of the officer-membership arm. -/
lemma mem_officerMembDepts (s : State) (u : Teacher)
    (hdid : (s.departments.map Department.id).Nodup) :
    ∀ dep, dep ∈ officerMembDepts s u ↔
      (dep ∈ s.departments ∧ dep.is_active = true ∧
       ∃ m ∈ s.memberships, m.teacher_id = u.id ∧ m.role_type = "officer"
         ∧ m.department_id = dep.id) := by
  intro dep
  unfold officerMembDepts
  rw [List.mem_filterMap]
  constructor
  · rintro ⟨m, hm, hf⟩
    by_cases hcond : m.teacher_id = u.id ∧ m.role_type = "officer"
    · rw [if_pos hcond] at hf
      cases hfind : s.departments.find? (fun d => d.id == m.department_id) with
      | none =>
        rw [hfind] at hf
        cases hf
      | some d0 =>
        rw [hfind] at hf
        simp only [Option.some_bind] at hf
        by_cases hact : d0.is_active = true
        · rw [if_pos hact] at hf
          have hd0 : d0 = dep := by
            injection hf
          subst hd0
          have hdin := List.mem_of_find?_eq_some hfind
          have hdid2 : d0.id = m.department_id := by
            have := List.find?_some hfind
            simpa using this
          exact ⟨hdin, hact, m, hm, hcond.1, hcond.2, hdid2.symm⟩
        · rw [if_neg hact] at hf
          cases hf
    · rw [if_neg hcond] at hf
      cases hf
  · rintro ⟨hdep, hact, m, hm, h1, h2, h3⟩
    refine ⟨m, hm, ?_⟩
    rw [if_pos ⟨h1, h2⟩]
    have hfind : s.departments.find? (fun d => d.id == m.department_id) = some dep := by
      apply (find?_eq_some_iff_unique ?_ dep).mpr ⟨hdep, by simp [h3]⟩
      intro x hx y hy hpx hpy
      exact dept_id_inj hdid x hx y hy
        (by rw [(beq_iff_eq).mp hpx, (beq_iff_eq).mp hpy])
    rw [hfind]
    simp [hact]

/-- `dedupById` neither loses nor invents members when the underlying rows
come from a pk-unique table. -/
lemma mem_dedupById_aux (s : State)
    (hdid : (s.departments.map Department.id).Nodup) :
    ∀ (l acc : List Department), (∀ x ∈ l, x ∈ s.departments) →
      (∀ x ∈ acc, x ∈ s.departments) →
      ∀ dep, dep ∈ l.foldl
          (fun acc2 d => if acc2.any (fun x => x.id == d.id) then acc2
            else acc2 ++ [d]) acc ↔ (dep ∈ acc ∨ dep ∈ l) := by
  intro l
  induction l with
  | nil =>
    intro acc _ _ dep
    simp
  | cons a t ih =>
    intro acc hl hacc dep
    have hla : a ∈ s.departments := hl a (List.mem_cons_self a t)
    have hlt : ∀ x ∈ t, x ∈ s.departments := fun x hx => hl x (List.mem_cons_of_mem a hx)
    simp only [List.foldl_cons]
    by_cases hany : (acc.any (fun x => x.id == a.id)) = true
    · rw [hany]
      simp only [if_true]
      have hain : a ∈ acc := by
        obtain ⟨x, hx, hxa⟩ := List.any_eq_true.mp hany
        have : x = a := dept_id_inj hdid x (hacc x hx) a hla (by simpa using hxa)
        rw [← this]
        exact hx
      rw [ih acc hlt hacc dep]
      constructor
      · rintro (h | h)
        · exact Or.inl h
        · exact Or.inr (List.mem_cons_of_mem a h)
      · rintro (h | h)
        · exact Or.inl h
        · rcases List.mem_cons.mp h with rfl | h
          · exact Or.inl hain
          · exact Or.inr h
    · have hany2 : (acc.any (fun x => x.id == a.id)) = false := by
        simpa using hany
      rw [hany2, if_neg (by simp)]
      have hacc2 : ∀ x ∈ acc ++ [a], x ∈ s.departments := by
        intro x hx
        rcases List.mem_append.mp hx with hx | hx
        · exact hacc x hx
        · rw [List.mem_singleton.mp hx]
          exact hla
      rw [ih (acc ++ [a]) hlt hacc2 dep]
      simp only [List.mem_append, List.mem_singleton, List.mem_cons]
      tauto

/-- Membership in `dedupById` over the officer-membership departments. -/
lemma mem_dedupById (s : State) (u : Teacher)
    (hdid : (s.departments.map Department.id).Nodup) :
    ∀ dep, dep ∈ dedupById (officerMembDepts s u) ↔ dep ∈ officerMembDepts s u := by
  intro dep
  unfold dedupById
  rw [mem_dedupById_aux s hdid (officerMembDepts s u) []
    (fun x hx => ((mem_officerMembDepts s u hdid x).mp hx).1) (by intro x hx; cases hx) dep]
  simp

/-- The declarative description of the legacy fallback's result for a given
role: an active department matched by the role's truthy slug, or — when no
such department exists — by the role's truthy name against `role_label`,
case-insensitively. -/
def fallbackPred (s : State) (role : Role) (dep : Department) : Prop :=
  dep.is_active = true ∧
  ((role.slug ≠ "" ∧ dep.slug = role.slug) ∨
   ((¬ ∃ d2 ∈ s.departments, d2.is_active = true ∧ d2.slug ≠ "" ∧ d2.slug = role.slug) ∧
    role.name ≠ "" ∧ strLower dep.role_label = strLower role.name))

/-- The label stage of the fallback, assuming no active slug match exists. -/
lemma label_stage_char (s : State) (role : Role)
    (hlbl : ∀ d1 ∈ s.departments, ∀ d2 ∈ s.departments,
      d1.is_active = true → d2.is_active = true →
      strLower d1.role_label = strLower d2.role_label → d1 = d2)
    (hnosm : ¬ ∃ d2 ∈ s.departments, d2.is_active = true ∧ d2.slug ≠ ""
      ∧ d2.slug = role.slug) :
    ∀ dep, ((if role.name ≠ "" then
        (s.departments.filter (fun d => d.is_active)).find?
          (fun d => strLower d.role_label == strLower role.name)
      else none) = some dep) ↔ dep ∈ s.departments ∧ fallbackPred s role dep := by
  intro dep
  by_cases hrn : role.name ≠ ""
  · rw [if_pos hrn]
    have huniq : ∀ x ∈ s.departments.filter (fun d => d.is_active),
        ∀ y ∈ s.departments.filter (fun d => d.is_active),
        (strLower x.role_label == strLower role.name) = true →
        (strLower y.role_label == strLower role.name) = true → x = y := by
      intro x hx y hy hpx hpy
      obtain ⟨hx1, hx2⟩ := List.mem_filter.mp hx
      obtain ⟨hy1, hy2⟩ := List.mem_filter.mp hy
      exact hlbl x hx1 y hy1 hx2 hy2
        ((beq_iff_eq.mp hpx).trans (beq_iff_eq.mp hpy).symm)
    rw [find?_eq_some_iff_unique huniq dep]
    constructor
    · rintro ⟨hm, hp⟩
      obtain ⟨hmem, hact⟩ := List.mem_filter.mp hm
      exact ⟨hmem, hact, Or.inr ⟨hnosm, hrn, beq_iff_eq.mp hp⟩⟩
    · rintro ⟨hmem, hact, harm⟩
      rcases harm with ⟨hs1, hs2⟩ | ⟨-, -, hlb⟩
      · exact absurd ⟨dep, hmem, hact, hs2 ▸ hs1, hs2⟩ hnosm
      · exact ⟨List.mem_filter.mpr ⟨hmem, hact⟩, beq_iff_eq.mpr hlb⟩
  · rw [if_neg hrn]
    push_neg at hrn
    constructor
    · intro h
      cases h
    · rintro ⟨hmem, hact, harm⟩
      rcases harm with ⟨hs1, hs2⟩ | ⟨-, hn, -⟩
      · exact absurd ⟨dep, hmem, hact, hs2 ▸ hs1, hs2⟩ hnosm
      · exact absurd hrn hn

/-- Characterization of the fallback department. -/
lemma fallbackDept_char (s : State) (role : Role)
    (hdsl : (s.departments.map Department.slug).Nodup)
    (hlbl : ∀ d1 ∈ s.departments, ∀ d2 ∈ s.departments,
      d1.is_active = true → d2.is_active = true →
      strLower d1.role_label = strLower d2.role_label → d1 = d2) :
    ∀ dep, fallbackDept s role = some dep ↔
      dep ∈ s.departments ∧ fallbackPred s role dep := by
  intro dep
  unfold fallbackDept
  by_cases hrs : role.slug ≠ ""
  · rw [if_pos hrs]
    cases hf1 : (s.departments.filter (fun d => d.is_active)).find?
        (fun d => d.slug == role.slug) with
    | some dd =>
      have hddm := List.mem_of_find?_eq_some hf1
      obtain ⟨hddmem, hddact⟩ := List.mem_filter.mp hddm
      have hddslug : dd.slug = role.slug := by
        have := List.find?_some hf1
        simpa using this
      constructor
      · intro h
        have hdd : dd = dep := by injection h
        subst hdd
        exact ⟨hddmem, hddact, Or.inl ⟨hrs, hddslug⟩⟩
      · rintro ⟨hmem, hact, harm⟩
        rcases harm with ⟨-, hs2⟩ | ⟨hnosm, -, -⟩
        · have : dep = dd :=
            List.inj_on_of_nodup_map hdsl hmem hddmem (by rw [hs2, hddslug])
          rw [this]
        · exact absurd ⟨dd, hddmem, hddact, hddslug ▸ hrs, hddslug⟩ hnosm
    | none =>
      have hnosm : ¬ ∃ d2 ∈ s.departments, d2.is_active = true ∧ d2.slug ≠ ""
          ∧ d2.slug = role.slug := by
        rintro ⟨d2, hd2, hact2, -, heq2⟩
        have hin : d2 ∈ s.departments.filter (fun d => d.is_active) :=
          List.mem_filter.mpr ⟨hd2, hact2⟩
        have := List.find?_eq_none.mp hf1 d2 hin
        exact this (by simpa using heq2)
      exact label_stage_char s role hlbl hnosm dep
  · rw [if_neg hrs]
    push_neg at hrs
    have hnosm : ¬ ∃ d2 ∈ s.departments, d2.is_active = true ∧ d2.slug ≠ ""
        ∧ d2.slug = role.slug := by
      rintro ⟨d2, -, -, hne2, heq2⟩
      rw [hrs] at heq2
      exact hne2 heq2
    exact label_stage_char s role hlbl hnosm dep

/-- With the user's role resolved, the amended officer relation splits into
the membership arm and the declarative fallback. -/
lemma amended_is_officer_iff (s : State) (u : Teacher) (role : Role) (dep : Department)
    (hur : userRole s u = some role) :
    amended_is_officer s u dep ↔
      ((dep.is_active = true ∧ ∃ m ∈ s.memberships, m.teacher_id = u.id
        ∧ m.department_id = dep.id ∧ m.role_type = "officer") ∨
       fallbackPred s role dep) := by
  unfold amended_is_officer fallbackPred
  rw [hur]
  simp only [Option.map_some', Option.getD_some, Option.some.injEq]
  constructor
  · rintro (h | ⟨hact, harm⟩)
    · exact Or.inl h
    · rcases harm with ⟨hs1, hs2⟩ | ⟨hno, hn, hlb⟩
      · exact Or.inr ⟨hact, Or.inl ⟨hs1 ▸ hs2, hs1.symm⟩⟩
      · refine Or.inr ⟨hact, Or.inr ⟨?_, hn, hlb.symm⟩⟩
        rintro ⟨d2, hd2, ha2, hne2, heq2⟩
        exact hno ⟨d2, hd2, ha2, hne2, heq2.symm⟩
  · rintro (h | ⟨hact, harm⟩)
    · exact Or.inl h
    · rcases harm with ⟨hs1, hs2⟩ | ⟨hno, hn, hlb⟩
      · exact Or.inr ⟨hact, Or.inl ⟨hs2.symm, hs2 ▸ hs1⟩⟩
      · refine Or.inr ⟨hact, Or.inr ⟨?_, hn, hlb.symm⟩⟩
        rintro ⟨d2, hd2, ha2, hne2, heq2⟩
        exact hno ⟨d2, hd2, ha2, hne2, heq2.symm⟩

/-- With no resolved role, the amended officer relation is the membership
arm alone. -/
lemma amended_is_officer_none (s : State) (u : Teacher) (dep : Department)
    (hur : userRole s u = none) :
    amended_is_officer s u dep ↔
      (dep.is_active = true ∧ ∃ m ∈ s.memberships, m.teacher_id = u.id
        ∧ m.department_id = dep.id ∧ m.role_type = "officer") := by
  unfold amended_is_officer
  rw [hur]
  simp

/-- C2's membership characterization of officer discovery, amended with the
label fallback. -/
lemma mem_get_officer_departments (s : State) (u : Teacher)
    (hauth : u.is_authenticated = true)
    (hdid : (s.departments.map Department.id).Nodup)
    (hdsl : (s.departments.map Department.slug).Nodup)
    (hlbl : ∀ d1 ∈ s.departments, ∀ d2 ∈ s.departments,
      d1.is_active = true → d2.is_active = true →
      strLower d1.role_label = strLower d2.role_label → d1 = d2) :
    ∀ dep, dep ∈ get_officer_departments s u ↔
      dep ∈ s.departments ∧ amended_is_officer s u dep := by
  intro dep
  have hmemb : ∀ dep2 : Department, dep2 ∈ dedupById (officerMembDepts s u) ↔
      (dep2 ∈ s.departments ∧ dep2.is_active = true ∧
       ∃ m ∈ s.memberships, m.teacher_id = u.id ∧ m.role_type = "officer"
         ∧ m.department_id = dep2.id) := by
    intro dep2
    rw [mem_dedupById s u hdid dep2, mem_officerMembDepts s u hdid dep2]
  unfold get_officer_departments
  rw [if_neg (by simp [hauth])]
  cases hur : userRole s u with
  | none =>
    rw [hmemb dep, amended_is_officer_none s u dep hur]
    tauto
  | some role =>
    cases hfb : fallbackDept s role with
    | none =>
      have hnofb : ∀ dep2 ∈ s.departments, ¬ fallbackPred s role dep2 := by
        intro dep2 hdep2 hfp
        have := (fallbackDept_char s role hdsl hlbl dep2).mpr ⟨hdep2, hfp⟩
        rw [hfb] at this
        cases this
      simp only [hfb]
      rw [hmemb dep, amended_is_officer_iff s u role dep hur]
      constructor
      · rintro ⟨h1, h2, h3⟩
        exact ⟨h1, Or.inl ⟨h2, by tauto⟩⟩
      · rintro ⟨h1, h2 | h2⟩
        · exact ⟨h1, h2.1, by tauto⟩
        · exact absurd h2 (hnofb dep h1)
    | some dd =>
      obtain ⟨hddmem, hddfp⟩ := (fallbackDept_char s role hdsl hlbl dd).mp hfb
      have huniqF : ∀ x ∈ s.departments, fallbackPred s role x → x = dd := by
        intro x hx hfp
        have := (fallbackDept_char s role hdsl hlbl x).mpr ⟨hx, hfp⟩
        rw [hfb] at this
        injection this.symm
      simp only [hfb]
      rw [amended_is_officer_iff s u role dep hur]
      by_cases hany : ((dedupById (officerMembDepts s u)).any
          (fun x => x.id == dd.id)) = true
      · rw [hany]
        simp only [if_true]
        have hddin : dd ∈ dedupById (officerMembDepts s u) := by
          obtain ⟨x, hx, hxa⟩ := List.any_eq_true.mp hany
          have hxm := ((hmemb x).mp hx).1
          have : x = dd := dept_id_inj hdid x hxm dd hddmem (by simpa using hxa)
          rw [← this]
          exact hx
        rw [hmemb dep]
        constructor
        · rintro ⟨h1, h2, h3⟩
          exact ⟨h1, Or.inl ⟨h2, by tauto⟩⟩
        · rintro ⟨h1, h2 | h2⟩
          · exact ⟨h1, h2.1, by tauto⟩
          · have := huniqF dep h1 h2
            subst this
            exact (hmemb dep).mp hddin
      · have hany2 : ((dedupById (officerMembDepts s u)).any
            (fun x => x.id == dd.id)) = false := by
          simpa using hany
        rw [hany2, if_neg (by simp)]
        rw [List.mem_append, List.mem_singleton, hmemb dep]
        constructor
        · rintro (⟨h1, h2, h3⟩ | rfl)
          · exact ⟨h1, Or.inl ⟨h2, by tauto⟩⟩
          · exact ⟨hddmem, Or.inr hddfp⟩
        · rintro ⟨h1, h2 | h2⟩
          · exact Or.inl ⟨h1, h2.1, by tauto⟩
          · exact Or.inr (huniqF dep h1 h2)

/-- `values_list` membership over the report-type join. -/
lemma mem_codesOfRTIds (s : State)
    (hrtid : (s.reporttypes.map ReportType.id).Nodup)
    (ids : List Nat) (c : String) :
    c ∈ codesOfRTIds s ids ↔
      ∃ rt ∈ s.reporttypes, rt.id ∈ ids ∧ rt.code = c := by
  unfold codesOfRTIds
  rw [List.mem_filterMap]
  constructor
  · rintro ⟨i, hi, hmap⟩
    obtain ⟨rt, hrt, hcode⟩ := Option.map_eq_some'.mp hmap
    have hrtm := List.mem_of_find?_eq_some hrt
    have hrtid2 : rt.id = i := by
      have := List.find?_some hrt
      simpa using this
    exact ⟨rt, hrtm, hrtid2 ▸ hi, hcode⟩
  · rintro ⟨rt, hrt, hid, hcode⟩
    refine ⟨rt.id, hid, ?_⟩
    have hfind : s.reporttypes.find? (fun x => x.id == rt.id) = some rt := by
      apply (find?_eq_some_iff_unique ?_ rt).mpr ⟨hrt, by simp⟩
      intro x hx y hy hpx hpy
      exact List.inj_on_of_nodup_map hrtid hx hy
        (by rw [beq_iff_eq.mp hpx, beq_iff_eq.mp hpy])
    rw [hfind]
    rw [Option.map_some', hcode]

/-- C2 (amended): the resolution order of `allowed_categories_for` — `"all"`
for superuser / `manager` slug / `can_view_all_reports`; otherwise exactly
the union of (a) the codes of `role.allowed_reporttypes` and (b) the codes of
the `reporttypes` of every officer department, where officer discovery also
includes the legacy label fallback (`amended_is_officer`). -/
theorem allowed_categories_for_amended (s : State) (u : Teacher)
    (hauth : u.is_authenticated = true)
    (hdid : (s.departments.map Department.id).Nodup)
    (hdsl : (s.departments.map Department.slug).Nodup)
    (hrtid : (s.reporttypes.map ReportType.id).Nodup)
    (hcodes : ∀ rt ∈ s.reporttypes, rt.code ≠ "")
    (hlbl : ∀ d1 ∈ s.departments, ∀ d2 ∈ s.departments,
      d1.is_active = true → d2.is_active = true →
      strLower d1.role_label = strLower d2.role_label → d1 = d2) :
    ((u.is_superuser = true ∨ (userRole s u).map Role.slug = some "manager"
        ∨ ((userRole s u).map Role.can_view_all_reports).getD false = true) →
      allowed_categories_for s u = ["all"]) ∧
    (¬ (u.is_superuser = true ∨ (userRole s u).map Role.slug = some "manager"
        ∨ ((userRole s u).map Role.can_view_all_reports).getD false = true) →
      ∀ c, c ∈ allowed_categories_for s u ↔
        ((∃ rt ∈ s.reporttypes,
            rt.id ∈ ((userRole s u).map Role.allowed_reporttypes).getD [] ∧ rt.code = c) ∨
         (∃ dep ∈ s.departments, amended_is_officer s u dep ∧
            ∃ rt ∈ s.reporttypes, rt.id ∈ dep.reporttypes ∧ rt.code = c))) := by
  constructor
  · intro h
    unfold allowed_categories_for
    split_ifs with h1 h2 h3
    · rfl
    · rfl
    · rfl
    · tauto
  · intro hno c
    obtain ⟨h1, h2, h3⟩ : ¬ u.is_superuser = true ∧
        ¬ (userRole s u).map Role.slug = some "manager" ∧
        ¬ ((userRole s u).map Role.can_view_all_reports).getD false = true := by
      tauto
    unfold allowed_categories_for
    rw [if_neg h1, if_neg h2, if_neg h3, List.mem_append]
    have harm1 : (c ∈ (match userRole s u with
        | some r => (codesOfRTIds s r.allowed_reporttypes).filter (fun c2 => c2 ≠ "")
        | none => ([] : List String))) ↔
        (∃ rt ∈ s.reporttypes,
          rt.id ∈ ((userRole s u).map Role.allowed_reporttypes).getD [] ∧ rt.code = c) := by
      cases hur : userRole s u with
      | none => simp
      | some ro =>
        simp only [Option.map_some', Option.getD_some]
        rw [List.mem_filter]
        constructor
        · rintro ⟨hc1, -⟩
          exact (mem_codesOfRTIds s hrtid _ c).mp hc1
        · intro hex
          refine ⟨(mem_codesOfRTIds s hrtid _ c).mpr hex, ?_⟩
          obtain ⟨rt, hrt, -, hcode⟩ := hex
          have hc2 : c ≠ "" := hcode ▸ hcodes rt hrt
          simpa using hc2
    have harm2 : (c ∈ (get_officer_departments s u).flatMap
        (fun d => (codesOfRTIds s d.reporttypes).filter (fun c2 => c2 ≠ ""))) ↔
        (∃ dep ∈ s.departments, amended_is_officer s u dep ∧
          ∃ rt ∈ s.reporttypes, rt.id ∈ dep.reporttypes ∧ rt.code = c) := by
      rw [List.mem_flatMap]
      constructor
      · rintro ⟨dep, hdep, hc⟩
        obtain ⟨hdm, ham⟩ :=
          (mem_get_officer_departments s u hauth hdid hdsl hlbl dep).mp hdep
        obtain ⟨hc1, -⟩ := List.mem_filter.mp hc
        exact ⟨dep, hdm, ham, (mem_codesOfRTIds s hrtid _ c).mp hc1⟩
      · rintro ⟨dep, hdm, ham, hex⟩
        refine ⟨dep,
          (mem_get_officer_departments s u hauth hdid hdsl hlbl dep).mpr ⟨hdm, ham⟩, ?_⟩
        refine List.mem_filter.mpr ⟨(mem_codesOfRTIds s hrtid _ c).mpr hex, ?_⟩
        obtain ⟨rt, hrt, -, hcode⟩ := hex
        have hc2 : c ≠ "" := hcode ▸ hcodes rt hrt
        simpa using hc2
    rw [harm1, harm2]

/-- Witness for C2 (amended) on `sampleState`: the label fallback makes the
user an officer of department 1, so exactly code `"c"` is allowed. -/
theorem allowed_categories_for_amended_witness :
    (((sampleUser.is_superuser = true
        ∨ (userRole sampleState sampleUser).map Role.slug = some "manager"
        ∨ ((userRole sampleState sampleUser).map Role.can_view_all_reports).getD false
            = true) →
      allowed_categories_for sampleState sampleUser = ["all"]) ∧
    (¬ (sampleUser.is_superuser = true
        ∨ (userRole sampleState sampleUser).map Role.slug = some "manager"
        ∨ ((userRole sampleState sampleUser).map Role.can_view_all_reports).getD false
            = true) →
      ∀ c, c ∈ allowed_categories_for sampleState sampleUser ↔
        ((∃ rt ∈ sampleState.reporttypes,
            rt.id ∈ ((userRole sampleState sampleUser).map Role.allowed_reporttypes).getD []
              ∧ rt.code = c) ∨
         (∃ dep ∈ sampleState.departments, amended_is_officer sampleState sampleUser dep ∧
            ∃ rt ∈ sampleState.reporttypes, rt.id ∈ dep.reporttypes ∧ rt.code = c)))) :=
  allowed_categories_for_amended sampleState sampleUser (by decide) (by decide)
    (by decide) (by decide) (by decide) (by decide)

end School
